import Mathlib

/-!
Verification development for the challenge-response authentication library
(`auth_chalresp.c`, `auth_lib.c`).

The C sources are shallowly embedded as pure Lean functions:

* Machine bytes are `Nat` values (< 256 on the real wire); buffers are `List Nat`.
* The tinycrypt SHA-256 streaming primitive is an external collaborator of the
  repository; it is modelled functionally (the streaming state is the list of
  bytes absorbed so far, `tc_sha256_final` applies a full executable SHA-256,
  implemented below from FIPS 180-4, which is the behaviour the library relies
  on).  Possible primitive failures are injected through a `CryptoOutcome`
  record so the error-propagation logic of `auth_chalresp_hash` is preserved.
* The transport (`auth_xport_recv` / `auth_xport_send`) is an external
  collaborator; each call consumes one step of an environment oracle (`OStep`
  for receives, an `Int` return value for sends).  The session's cancellation
  flag is written concurrently by `auth_lib_cancel`, so the value the worker
  observes right after each receive is also supplied by the oracle
  (`OStep.cancelAfter`), as is the value at the inter-phase check points
  (`Env.cancelA`).
* The protocol workers are total functions from the environment to an optional
  run outcome: `none` means the oracle was exhausted (e.g. an unbounded retry
  loop) or the transport broke its contract (delivered more bytes than asked);
  `some (trace, ret)` is a completed run.  The trace records, in order, every
  frame handed to `auth_xport_send`, every `auth_xport_recv` call with the
  timeout used, every `auth_lib_set_status` call (which also invokes the
  status callback), and every point where the worker observed the cancellation
  flag set.
-/

/-! ## Bytes and SHA-256 (FIPS 180-4, executable) -/

abbrev Bytes := List Nat

def M32 : Nat := 4294967296

def add32 (a b : Nat) : Nat := (a + b) % M32

def rotr32 (n x : Nat) : Nat := ((x >>> n) ||| (x <<< (32 - n))) % M32

def shr32 (n x : Nat) : Nat := x >>> n

def not32 (x : Nat) : Nat := 4294967295 ^^^ x

def sha256K : List Nat :=
  [1116352408, 1899447441, 3049323471, 3921009573, 961987163, 1508970993,
   2453635748, 2870763221, 3624381080, 310598401, 607225278, 1426881987,
   1925078388, 2162078206, 2614888103, 3248222580, 3835390401, 4022224774,
   264347078, 604807628, 770255983, 1249150122, 1555081692, 1996064986,
   2554220882, 2821834349, 2952996808, 3210313671, 3336571891, 3584528711,
   113926993, 338241895, 666307205, 773529912, 1294757372, 1396182291,
   1695183700, 1986661051, 2177026350, 2456956037, 2730485921, 2820302411,
   3259730800, 3345764771, 3516065817, 3600352804, 4094571909, 275423344,
   430227734, 506948616, 659060556, 883997877, 958139571, 1322822218,
   1537002063, 1747873779, 1955562222, 2024104815, 2227730452, 2361852424,
   2428436474, 2756734187, 3204031479, 3329325298]

def sha256H0 : List Nat :=
  [1779033703, 3144134277, 1013904242, 2773480762,
   1359893119, 2600822924, 528734635, 1541459225]

def bytesToWords : Bytes → List Nat
  | a :: b :: c :: d :: rest => (((a * 256 + b) * 256 + c) * 256 + d) :: bytesToWords rest
  | _ => []

def wordToBytes (w : Nat) : Bytes :=
  [w / 16777216 % 256, w / 65536 % 256, w / 256 % 256, w % 256]

def lenBytes64 (n : Nat) : Bytes :=
  [n / 2 ^ 56 % 256, n / 2 ^ 48 % 256, n / 2 ^ 40 % 256, n / 2 ^ 32 % 256,
   n / 2 ^ 24 % 256, n / 2 ^ 16 % 256, n / 2 ^ 8 % 256, n % 256]

def sha256Pad (msg : Bytes) : Bytes :=
  msg ++ 0x80 :: List.replicate ((119 - msg.length % 64) % 64) 0 ++ lenBytes64 (8 * msg.length)

def chunk64 : Nat → Bytes → List Bytes
  | 0, _ => []
  | _, [] => []
  | fuel + 1, l => l.take 64 :: chunk64 fuel (l.drop 64)

def nextSchedWord (ws : List Nat) : Nat :=
  let n := ws.length
  let w16 := ws.getD (n - 16) 0
  let w15 := ws.getD (n - 15) 0
  let w7 := ws.getD (n - 7) 0
  let w2 := ws.getD (n - 2) 0
  let s0 := (rotr32 7 w15) ^^^ (rotr32 18 w15) ^^^ (shr32 3 w15)
  let s1 := (rotr32 17 w2) ^^^ (rotr32 19 w2) ^^^ (shr32 10 w2)
  add32 (add32 w16 s0) (add32 w7 s1)

def extendSched : Nat → List Nat → List Nat
  | 0, ws => ws
  | k + 1, ws => extendSched k (ws ++ [nextSchedWord ws])

def sha256Round (st : List Nat) (kw : Nat) : List Nat :=
  match st with
  | [a, b, c, d, e, f, g, h] =>
    let s1 := (rotr32 6 e) ^^^ (rotr32 11 e) ^^^ (rotr32 25 e)
    let ch := (e &&& f) ^^^ ((not32 e) &&& g)
    let t1 := add32 (add32 (add32 h s1) ch) kw
    let s0 := (rotr32 2 a) ^^^ (rotr32 13 a) ^^^ (rotr32 22 a)
    let mj := (a &&& b) ^^^ (a &&& c) ^^^ (b &&& c)
    let t2 := add32 s0 mj
    [add32 t1 t2, a, b, c, add32 d t1, e, f, g]
  | _ => st

def sha256Compress (hs : List Nat) (block : Bytes) : List Nat :=
  let w := extendSched 48 (bytesToWords block)
  let kw := List.zipWith add32 sha256K w
  let st := kw.foldl sha256Round hs
  List.zipWith add32 hs st

/-- SHA-256 of a byte list, as a fully executable function. -/
def sha256 (msg : Bytes) : Bytes :=
  let p := sha256Pad msg
  let hs := (chunk64 p.length p).foldl sha256Compress sha256H0
  (hs.map wordToBytes).flatten

/-! ## `auth_chalresp.c`: constants and message layout

All multi-byte integers are little-endian on the wire (x86 packed structs), so
the constant `CHALLENGE_RESP_SOH = 0x65A2` is serialised as `0xA2 0x65`. -/

def CHALLENGE_RESP_SOH : Nat := 0x65A2

def AUTH_CLIENT_CHAL_MSG_ID : Nat := 0x01

def AUTH_SERVER_CHALRESP_MSG_ID : Nat := 0x02

def AUTH_CLIENT_CHALRESP_MSG_ID : Nat := 0x03

def AUTH_CHALRESP_RESULT_MSG_ID : Nat := 0x04

def AUTH_RX_TIMEOUT_MSEC : Nat := 3000

def AUTH_CHALLENGE_LEN : Nat := 32

def AUTH_SHARED_KEY_LEN : Nat := 32

/-- Serialised `chalresp_header`: SOH little-endian, then the message id. -/
def chalrespHeaderBytes (msg_id : Nat) : Bytes := [0xA2, 0x65, msg_id]

/-- Serialised `client_challenge` (35 bytes). -/
def clientChalFrame (nonce : Bytes) : Bytes :=
  chalrespHeaderBytes AUTH_CLIENT_CHAL_MSG_ID ++ nonce.take 32

/-- Serialised `server_chal_response` (67 bytes). -/
def serverChalRespFrame (resp chal : Bytes) : Bytes :=
  chalrespHeaderBytes AUTH_SERVER_CHALRESP_MSG_ID ++ resp.take 32 ++ chal.take 32

/-- Serialised `client_chal_resp` (35 bytes). -/
def clientChalRespFrame (resp : Bytes) : Bytes :=
  chalrespHeaderBytes AUTH_CLIENT_CHALRESP_MSG_ID ++ resp.take 32

/-- Serialised `auth_chalresp_result` (4 bytes). -/
def chalrespResultFrame (result : Nat) : Bytes :=
  chalrespHeaderBytes AUTH_CHALRESP_RESULT_MSG_ID ++ [result]

/-- The `soh` field of a received buffer (little-endian `uint16_t` at offset 0). -/
def parseSoh (m : Bytes) : Nat := m.getD 0 0 + 256 * m.getD 1 0

/-- The `msg_id` field of a received buffer (byte at offset 2). -/
def parseMsgId (m : Bytes) : Nat := m.getD 2 0

/-- Field `client_challenge` of a received `client_challenge` message. -/
def clientChallengeOf (m : Bytes) : Bytes := (m.drop 3).take 32

/-- Field `server_response` of a received `server_chal_response` message. -/
def serverResponseOf (m : Bytes) : Bytes := (m.drop 3).take 32

/-- Field `server_challenge` of a received `server_chal_response` message. -/
def serverChallengeOf (m : Bytes) : Bytes := (m.drop 35).take 32

/-- Field `result` of a received `auth_chalresp_result` message. -/
def resultByteOf (m : Bytes) : Nat := m.getD 3 0

/-- Embedding of `auth_check_msg`: header SOH and message id check. -/
def auth_check_msg (m : Bytes) (msg_id : Nat) : Bool :=
  (parseSoh m == CHALLENGE_RESP_SOH) && (parseMsgId m == msg_id)

/-! ## The hash primitive (`auth_chalresp_hash`) -/

/-- Functional model of the tinycrypt SHA-256 streaming state: the list of
bytes absorbed so far.  Tinycrypt is an external collaborator of this
repository; its documented behaviour is that init/update/final compute the
SHA-256 digest of the concatenation of all updated data. -/
structure Sha256State where
  acc : Bytes
deriving DecidableEq

def tc_sha256_init : Sha256State := ⟨[]⟩

def tc_sha256_update (s : Sha256State) (d : Bytes) : Sha256State := ⟨s.acc ++ d⟩

def tc_sha256_final (s : Sha256State) : Bytes := sha256 s.acc

/-- Success (`TC_CRYPTO_SUCCESS`) flags for the three tinycrypt calls made by
`auth_chalresp_hash`, in call order; injected by the environment so that the
error-propagation logic of the C function is preserved. -/
structure CryptoOutcome where
  upd1 : Bool
  upd2 : Bool
  fin : Bool
deriving DecidableEq

def cryptoOk : CryptoOutcome := ⟨true, true, true⟩

inductive HashRes
| ok (digest : Bytes)
| errCrypto
deriving DecidableEq

/-- Embedding of `auth_chalresp_hash`: update with the 32-byte random
challenge, then with the 32-byte shared key, then finalise.  Each tinycrypt
call is short-circuited exactly as in the C source (`||` between the two
updates; the final call only happens if both updates succeeded), and any
reported failure yields `AUTH_ERROR_CRYPTO` (constructor `errCrypto`). -/
def auth_chalresp_hash (co : CryptoOutcome) (random_chal shared_key : Bytes) : HashRes :=
  let s0 := tc_sha256_init
  if !co.upd1 then HashRes.errCrypto
  else
    let s1 := tc_sha256_update s0 (random_chal.take AUTH_CHALLENGE_LEN)
    if !co.upd2 then HashRes.errCrypto
    else
      let s2 := tc_sha256_update s1 (shared_key.take AUTH_SHARED_KEY_LEN)
      if !co.fin then HashRes.errCrypto
      else HashRes.ok (tc_sha256_final s2)

/-! ## The hash comparison (`memcmp`)

Both verification sites compare the computed digest with the received value by
`memcmp(hash, received, 32)`.  `memcmp` is the C library's byte-wise compare;
it stops at the first differing byte.  `memcmpNz` is true when `memcmp`
returns non-zero; `memcmpSteps` counts the byte comparisons performed before
it returns, which is the timing-relevant quantity. -/

def memcmpNz : Bytes → Bytes → Bool
  | x :: xs, y :: ys => if x = y then memcmpNz xs ys else true
  | _, _ => false

def memcmpSteps : Bytes → Bytes → Nat
  | x :: xs, y :: ys => if x = y then 1 + memcmpSteps xs ys else 1
  | _, _ => 0

/-! ## Session status and error codes (`auth_lib.h` interface) -/

inductive AuthStatus
| started
| inProcess
| canceled
| failed
| authFailed
| successful
deriving DecidableEq

def isTerminal : AuthStatus → Bool
  | AuthStatus.canceled => true
  | AuthStatus.failed => true
  | AuthStatus.authFailed => true
  | AuthStatus.successful => true
  | _ => false

inductive AuthRet
| success
| errInvalidParam
| errCrypto
| errFailed
| errCanceled
deriving DecidableEq

/-! ## Transport / environment oracle -/

/-- One outcome of an `auth_xport_recv` call, supplied by the environment:
either delivered bytes (a positive return), a timeout (`-EAGAIN`), or another
non-positive return value. -/
inductive RecvStep
| data (bs : Bytes)
| again
| fail (e : Int)
deriving DecidableEq

/-- A receive outcome together with the value of the session's cancellation
flag at the check point immediately after that receive returns. -/
structure OStep where
  step : RecvStep
  cancelAfter : Bool
deriving DecidableEq

/-- Trace events of a protocol-worker run. -/
inductive Ev
| send (frame : Bytes)
| recv (timeoutMsec : Nat)
| setStatus (s : AuthStatus)
| cancelObs
deriving DecidableEq

/-- Environment for one worker run. -/
structure Env where
  recvs : List OStep
  sends : List Int
  cancelA : Bool
  co1 : CryptoOutcome
  co2 : CryptoOutcome
  junk : Bytes
deriving DecidableEq

inductive LoopRes
| done (bytes : Bytes) (rest : List OStep)
| canceled (rest : List OStep)
| recvErr (rest : List OStep)
| noFuel
| bad
deriving DecidableEq

/-- The receive-until-complete loop shared by `auth_client_recv_chal_resp`
(lines 237-260) and `auth_server_recv_msg` (lines 342-361): call
`auth_xport_recv` with a 3000 ms window, then check the cancellation flag,
then retry on `-EAGAIN`, fail on any other non-positive return, and otherwise
accumulate the delivered bytes until `msglen` bytes have arrived.  `noFuel`
means the oracle ran out (the loop would still be running); `bad` means the
transport delivered more bytes than requested (or a `data` step with no
bytes), which the transport contract rules out. -/
def recvLoop : Nat → Bytes → List OStep → List Ev × LoopRes
  | remaining, acc, [] =>
    if remaining = 0 then ([], LoopRes.done acc []) else ([], LoopRes.noFuel)
  | remaining, acc, o :: rest =>
    if remaining = 0 then ([], LoopRes.done acc (o :: rest))
    else if o.cancelAfter then
      ([Ev.recv AUTH_RX_TIMEOUT_MSEC, Ev.cancelObs], LoopRes.canceled rest)
    else
      match o.step with
      | RecvStep.again =>
        let r := recvLoop remaining acc rest
        (Ev.recv AUTH_RX_TIMEOUT_MSEC :: r.1, r.2)
      | RecvStep.fail _ => ([Ev.recv AUTH_RX_TIMEOUT_MSEC], LoopRes.recvErr rest)
      | RecvStep.data bs =>
        if bs.length = 0 ∨ remaining < bs.length then
          ([Ev.recv AUTH_RX_TIMEOUT_MSEC], LoopRes.bad)
        else
          let r := recvLoop (remaining - bs.length) (acc ++ bs) rest
          (Ev.recv AUTH_RX_TIMEOUT_MSEC :: r.1, r.2)

/-- Embedding of `auth_server_recv_msg`. -/
def auth_server_recv_msg (msglen : Nat) (recvs : List OStep) : List Ev × LoopRes :=
  recvLoop msglen [] recvs

def sendOne : List Int → Option (Int × List Int)
  | [] => none
  | n :: rest => some (n, rest)

/-- The send-success test used at every send site:
`(numbytes <= 0) || (numbytes != sizeof(msg))` negated. -/
def sendAccepted (numbytes : Int) (sz : Nat) : Bool :=
  decide (0 < numbytes) && (numbytes == (sz : Int))

/-! ## Client worker (`auth_chalresp_client` and helpers) -/

/-- Embedding of `auth_client_send_challenge`. -/
def auth_client_send_challenge (nonce : Bytes) (sends : List Int) :
    Option (List Ev × Bool × List Int) :=
  match sendOne sends with
  | none => none
  | some (n, rest) => some ([Ev.send (clientChalFrame nonce)], sendAccepted n 35, rest)

/-- Embedding of `auth_client_recv_chal_resp`: receive the 67-byte message 2,
validate its header, hash the client's challenge with the shared key, compare
with the received `server_response` (mismatch: send a `result` frame with
result byte 1 and report `AUTH_STATUS_AUTHENTICATION_FAILED`), then hash the
server's challenge and send the 35-byte message 3.  Returns the emitted
events, the status value written through the `status` out-parameter, the
boolean function result, and the remaining oracle. -/
def auth_client_recv_chal_resp (co1 co2 : CryptoOutcome) (shared_key nonce : Bytes)
    (recvs : List OStep) (sends : List Int) :
    Option (List Ev × AuthStatus × Bool × List OStep × List Int) :=
  match recvLoop 67 [] recvs with
  | (_, LoopRes.noFuel) => none
  | (_, LoopRes.bad) => none
  | (evs, LoopRes.canceled rest) => some (evs, AuthStatus.canceled, false, rest, sends)
  | (evs, LoopRes.recvErr rest) => some (evs, AuthStatus.failed, false, rest, sends)
  | (evs, LoopRes.done m2 rest) =>
    if auth_check_msg m2 AUTH_SERVER_CHALRESP_MSG_ID then
      match auth_chalresp_hash co1 nonce shared_key with
      | HashRes.errCrypto => some (evs, AuthStatus.failed, false, rest, sends)
      | HashRes.ok hash =>
        if memcmpNz hash (serverResponseOf m2) then
          match sendOne sends with
          | none => none
          | some (_, srest) =>
            some (evs ++ [Ev.send (chalrespResultFrame 1)], AuthStatus.authFailed, false,
                  rest, srest)
        else
          match auth_chalresp_hash co2 (serverChallengeOf m2) shared_key with
          | HashRes.errCrypto => some (evs, AuthStatus.failed, false, rest, sends)
          | HashRes.ok resp =>
            match sendOne sends with
            | none => none
            | some (n, srest) =>
              if sendAccepted n 35 then
                some (evs ++ [Ev.send (clientChalRespFrame resp)], AuthStatus.inProcess, true,
                      rest, srest)
              else
                some (evs ++ [Ev.send (clientChalRespFrame resp)], AuthStatus.failed, false,
                      rest, srest)
    else some (evs, AuthStatus.failed, false, rest, sends)

/-- Embedding of `auth_chalresp_client`: send the challenge, check the
cancellation flag, process message 2 via `auth_client_recv_chal_resp`, then
perform the single (non-looping) receive of the 4-byte result message and
interpret it. -/
def auth_chalresp_client (shared_key nonce : Bytes) (env : Env) :
    Option (List Ev × AuthRet) :=
  match auth_client_send_challenge nonce env.sends with
  | none => none
  | some (evs1, ok, sends1) =>
    if ok then
      if env.cancelA then some (evs1 ++ [Ev.cancelObs], AuthRet.errCanceled)
      else
        match auth_client_recv_chal_resp env.co1 env.co2 shared_key nonce env.recvs sends1 with
        | none => none
        | some (evs2, st, success, recvs2, _) =>
          if success then
            match recvs2 with
            | [] => none
            | o :: _ =>
              if o.cancelAfter then
                some (evs1 ++ evs2 ++ [Ev.recv AUTH_RX_TIMEOUT_MSEC, Ev.cancelObs],
                      AuthRet.errCanceled)
              else
                match o.step with
                | RecvStep.data bs =>
                  if bs.length = 0 ∨ 4 < bs.length then none
                  else if bs.length ≠ 4 then
                    some (evs1 ++ evs2 ++
                          [Ev.recv AUTH_RX_TIMEOUT_MSEC, Ev.setStatus AuthStatus.authFailed],
                          AuthRet.errFailed)
                  else if auth_check_msg bs AUTH_CHALRESP_RESULT_MSG_ID then
                    if resultByteOf bs = 0 then
                      some (evs1 ++ evs2 ++
                            [Ev.recv AUTH_RX_TIMEOUT_MSEC, Ev.setStatus AuthStatus.successful],
                            AuthRet.success)
                    else
                      some (evs1 ++ evs2 ++
                            [Ev.recv AUTH_RX_TIMEOUT_MSEC, Ev.setStatus AuthStatus.authFailed],
                            AuthRet.errFailed)
                  else
                    some (evs1 ++ evs2 ++
                          [Ev.recv AUTH_RX_TIMEOUT_MSEC, Ev.setStatus AuthStatus.authFailed],
                          AuthRet.errFailed)
                | RecvStep.again =>
                  some (evs1 ++ evs2 ++
                        [Ev.recv AUTH_RX_TIMEOUT_MSEC, Ev.setStatus AuthStatus.authFailed],
                        AuthRet.errFailed)
                | RecvStep.fail _ =>
                  some (evs1 ++ evs2 ++
                        [Ev.recv AUTH_RX_TIMEOUT_MSEC, Ev.setStatus AuthStatus.authFailed],
                        AuthRet.errFailed)
          else some (evs1 ++ evs2 ++ [Ev.setStatus st], AuthRet.errFailed)
    else some (evs1 ++ [Ev.setStatus AuthStatus.failed], AuthRet.errFailed)

/-- The client worker thread (`auth_chalresp_thread`, client branch): emits
`AUTH_STATUS_STARTED` and runs `auth_chalresp_client`. -/
def clientRun (shared_key nonce : Bytes) (env : Env) : Option (List Ev × AuthRet) :=
  match auth_chalresp_client shared_key nonce env with
  | none => none
  | some (t, r) => some (Ev.setStatus AuthStatus.started :: t, r)

/-! ## Server worker (`auth_chalresp_server` and helpers) -/

/-- Embedding of `auth_server_recv_challenge`: receive the 35-byte message 1,
validate its header, hash the received client challenge with the shared key
(the return value of that hash call is ignored by the C source, so on failure
the uninitialised `server_response` stack bytes — `junk` — are sent), and send
the 67-byte message 2. -/
def auth_server_recv_challenge (co1 : CryptoOutcome) (shared_key snonce junk : Bytes)
    (recvs : List OStep) (sends : List Int) :
    Option (List Ev × Bool × List OStep × List Int) :=
  match auth_server_recv_msg 35 recvs with
  | (_, LoopRes.noFuel) => none
  | (_, LoopRes.bad) => none
  | (evs, LoopRes.canceled rest) => some (evs, false, rest, sends)
  | (evs, LoopRes.recvErr rest) => some (evs, false, rest, sends)
  | (evs, LoopRes.done m1 rest) =>
    if auth_check_msg m1 AUTH_CLIENT_CHAL_MSG_ID then
      let respHash :=
        match auth_chalresp_hash co1 (clientChallengeOf m1) shared_key with
        | HashRes.ok d => d
        | HashRes.errCrypto => (junk ++ List.replicate 32 0).take 32
      match sendOne sends with
      | none => none
      | some (n, srest) =>
        some (evs ++ [Ev.send (serverChalRespFrame respHash snonce)], sendAccepted n 67,
              rest, srest)
    else some (evs, false, rest, sends)

/-- Embedding of `auth_server_recv_chalresp`: read the 3-byte header first; if
the id is the result id the client rejected the server, so consume the result
byte (ignoring the read's outcome) and report
`AUTH_STATUS_AUTHENTICATION_FAILED`; otherwise read the remaining 32 body
bytes, hash the server's challenge with the shared key, compare with the
received response, send the result frame (byte 0 on match, 1 on mismatch) and
report `AUTH_STATUS_SUCCESSFUL` or `AUTH_STATUS_AUTHENTICATION_FAILED`.
Note that this function never checks the SOH of the received header. -/
def auth_server_recv_chalresp (co2 : CryptoOutcome) (shared_key snonce : Bytes)
    (recvs : List OStep) (sends : List Int) :
    Option (List Ev × AuthStatus × List OStep × List Int) :=
  match auth_server_recv_msg 3 recvs with
  | (_, LoopRes.noFuel) => none
  | (_, LoopRes.bad) => none
  | (evs, LoopRes.canceled rest) => some (evs, AuthStatus.failed, rest, sends)
  | (evs, LoopRes.recvErr rest) => some (evs, AuthStatus.failed, rest, sends)
  | (evs, LoopRes.done hdr rest) =>
    if parseMsgId hdr = AUTH_CHALRESP_RESULT_MSG_ID then
      match auth_server_recv_msg 1 rest with
      | (_, LoopRes.noFuel) => none
      | (_, LoopRes.bad) => none
      | (evs2, LoopRes.canceled rest2) =>
        some (evs ++ evs2, AuthStatus.authFailed, rest2, sends)
      | (evs2, LoopRes.recvErr rest2) =>
        some (evs ++ evs2, AuthStatus.authFailed, rest2, sends)
      | (evs2, LoopRes.done _ rest2) =>
        some (evs ++ evs2, AuthStatus.authFailed, rest2, sends)
    else
      match auth_server_recv_msg 32 rest with
      | (_, LoopRes.noFuel) => none
      | (_, LoopRes.bad) => none
      | (evs2, LoopRes.canceled rest2) => some (evs ++ evs2, AuthStatus.failed, rest2, sends)
      | (evs2, LoopRes.recvErr rest2) => some (evs ++ evs2, AuthStatus.failed, rest2, sends)
      | (evs2, LoopRes.done body rest2) =>
        match auth_chalresp_hash co2 snonce shared_key with
        | HashRes.errCrypto => some (evs ++ evs2, AuthStatus.failed, rest2, sends)
        | HashRes.ok hash =>
          let rb : Nat := if memcmpNz hash body then 1 else 0
          match sendOne sends with
          | none => none
          | some (n, srest) =>
            if sendAccepted n 4 then
              some (evs ++ evs2 ++ [Ev.send (chalrespResultFrame rb)],
                    if rb = 0 then AuthStatus.successful else AuthStatus.authFailed,
                    rest2, srest)
            else
              some (evs ++ evs2 ++ [Ev.send (chalrespResultFrame rb)], AuthStatus.failed,
                    rest2, srest)

/-- Embedding of `auth_chalresp_server`: receive and answer the challenge,
check the cancellation flag, then process message 3 and set the resulting
status (the return value of `auth_server_recv_chalresp` is ignored, its
`status` out-parameter is used). -/
def auth_chalresp_server (shared_key snonce : Bytes) (env : Env) :
    Option (List Ev × AuthRet) :=
  match auth_server_recv_challenge env.co1 shared_key snonce env.junk env.recvs env.sends with
  | none => none
  | some (evs1, ok, recvs1, sends1) =>
    if ok then
      if env.cancelA then some (evs1 ++ [Ev.cancelObs], AuthRet.errCanceled)
      else
        match auth_server_recv_chalresp env.co2 shared_key snonce recvs1 sends1 with
        | none => none
        | some (evs2, st, _, _) =>
          some (evs1 ++ evs2 ++ [Ev.setStatus st],
                if st = AuthStatus.successful then AuthRet.success else AuthRet.errFailed)
    else some (evs1 ++ [Ev.setStatus AuthStatus.failed], AuthRet.errFailed)

/-- The server worker thread (`auth_chalresp_thread`, server branch). -/
def serverRun (shared_key snonce : Bytes) (env : Env) : Option (List Ev × AuthRet) :=
  match auth_chalresp_server shared_key snonce env with
  | none => none
  | some (t, r) => some (Ev.setStatus AuthStatus.started :: t, r)

/-! ## `auth_lib.c`: flags, init, cancel -/

/-- Membership of the four relevant `auth_flags` bits (each is a distinct
single bit in the C enum). -/
structure AuthFlags where
  client : Bool
  server : Bool
  dtlsMethod : Bool
  chalrespMethod : Bool
deriving DecidableEq

/-- Embedding of `auth_lib_checkflags`: rejects the two-role combination and
the two-method combination (and nothing else). -/
def auth_lib_checkflags (f : AuthFlags) : Bool :=
  !(f.server && f.client) && !(f.dtlsMethod && f.chalrespMethod)

/-- Pointer state of the module-level `shared_key` variable: it points either
at `default_shared_key`, at the internal copy buffer `chalresp_key`, or (never
produced by this code, present so that copy-vs-alias semantics is expressible)
at a caller-owned buffer. -/
inductive KeyPtr
| defaultKey
| internalKey
| externalBuf
deriving DecidableEq

structure KeyState where
  ptr : KeyPtr
  chalresp_key : Bytes
deriving DecidableEq

/-- The compile-time default shared key of `auth_chalresp.c`. -/
def default_shared_key : Bytes :=
  [0xBD, 0x84, 0xDC, 0x6E, 0x5C, 0x77, 0x41, 0x58, 0xE8, 0xFB, 0x1D, 0xB9, 0x95, 0x39, 0x20, 0xE4,
   0xC5, 0x03, 0x69, 0x9D, 0xBC, 0x53, 0x08, 0x20, 0x1E, 0xF4, 0x72, 0x8E, 0x90, 0x56, 0x49, 0xA8]

/-- The 32 key bytes in effect, given the current contents of the caller's
buffer (relevant only if `shared_key` aliased it, which the code never does). -/
def activeKey (s : KeyState) (callerBufNow : Bytes) : Bytes :=
  match s.ptr with
  | KeyPtr.defaultKey => default_shared_key
  | KeyPtr.internalKey => s.chalresp_key
  | KeyPtr.externalBuf => callerBufNow

/-- Embedding of `auth_init_chalresp_method`: validate the two pointers, copy
32 caller bytes into `chalresp_key`, and point `shared_key` at that copy. -/
def auth_init_chalresp_method (connIsNull paramIsNull : Bool) (callerKey : Bytes)
    (s : KeyState) : AuthRet × KeyState :=
  if connIsNull || paramIsNull then (AuthRet.errInvalidParam, s)
  else (AuthRet.success, { ptr := KeyPtr.internalKey, chalresp_key := callerKey.take 32 })

/-- The tagged optional parameter of `auth_lib_init`. -/
inductive OptParam
| dtlsParam
| chalrespParam (sharedKey : Bytes)
deriving DecidableEq

/-- Embedding of `auth_lib_init` (with `AUTH_CHALLENGE_RESPONSE` compiled in
and `AUTH_DTLS` not compiled, as in this repository): a NULL status callback
or inconsistent flags fail with `AUTH_ERROR_INVALID_PARAM`; a challenge-
response optional parameter replaces the process-wide shared key. -/
def auth_lib_init (statusFuncIsNull : Bool) (flags : AuthFlags) (opt : Option OptParam)
    (ks : KeyState) : AuthRet × KeyState :=
  if statusFuncIsNull then (AuthRet.errInvalidParam, ks)
  else if !auth_lib_checkflags flags then (AuthRet.errInvalidParam, ks)
  else if flags.chalrespMethod then
    match opt with
    | some (OptParam.chalrespParam k) => auth_init_chalresp_method false false k ks
    | _ => (AuthRet.success, ks)
  else (AuthRet.success, ks)

/-! ## Trace observations -/

def evIsTerminalStatus : Ev → Bool
  | Ev.setStatus s => isTerminal s
  | _ => false

/-- Number of `auth_lib_set_status` calls with a terminal status in a worker
trace. -/
def terminalEmitCount (t : List Ev) : Nat := t.countP evIsTerminalStatus

/-- Terminal-status emissions of a whole session: `auth_lib_cancel` itself
emits `AUTH_STATUS_CANCELED` once when called, on top of the worker's own
`auth_lib_set_status` calls. -/
def sessionTerminalCount (cancelCalled : Bool) (t : List Ev) : Nat :=
  (if cancelCalled then 1 else 0) + terminalEmitCount t

/-- The last status emitted in a trace (the session's final status). -/
def lastStatus (t : List Ev) : Option AuthStatus :=
  (t.filterMap fun e => match e with | Ev.setStatus s => some s | _ => none).getLast?

/-- All frames handed to `auth_xport_send`, in order. -/
def sentFrames (t : List Ev) : List Bytes :=
  t.filterMap fun e => match e with | Ev.send f => some f | _ => none

/-- The events strictly after the first observation of the cancellation flag,
if the flag was observed at all. -/
def afterObs : List Ev → Option (List Ev)
  | [] => none
  | Ev.cancelObs :: rest => some rest
  | _ :: rest => afterObs rest

/-- True when the environment never presents a set cancellation flag. -/
def noCancelEnv (env : Env) : Bool :=
  !env.cancelA && env.recvs.all fun o => !o.cancelAfter

/-- Index of the first differing byte of two equal-length lists (specification
device for the timing behaviour of `memcmp`). -/
def firstDiff : Bytes → Bytes → Nat
  | x :: xs, y :: ys => if x = y then 1 + firstDiff xs ys else 0
  | _, _ => 0

/-- True unless the event is an `auth_xport_recv` call with a window other
than `AUTH_RX_TIMEOUT_MSEC`. -/
def evRecvOk : Ev → Bool
  | Ev.recv ms => ms == AUTH_RX_TIMEOUT_MSEC
  | _ => true

/-! ## Helper lemmas -/

lemma take_32_of_len (bs : Bytes) (h : bs.length = 32) : bs.take 32 = bs :=
  List.take_of_length_le (by omega)

lemma sha256Round_length (st : List Nat) (kw : Nat) :
    (sha256Round st kw).length = st.length := by
  rcases st with _ | ⟨a, _ | ⟨b, _ | ⟨c, _ | ⟨d, _ | ⟨e, _ | ⟨f, _ | ⟨g, _ | ⟨h, _ | ⟨i, t⟩⟩⟩⟩⟩⟩⟩⟩⟩ <;>
    simp [sha256Round]

lemma foldl_sha256Round_length (kw : List Nat) : ∀ hs : List Nat,
    (kw.foldl sha256Round hs).length = hs.length := by
  induction kw with
  | nil => intro hs; rfl
  | cons k ks ih => intro hs; simpa [sha256Round_length] using ih (sha256Round hs k)

lemma sha256Compress_length (hs : List Nat) (b : Bytes) (h : hs.length = 8) :
    (sha256Compress hs b).length = 8 := by
  simp [sha256Compress, foldl_sha256Round_length, h]

lemma foldl_sha256Compress_length (blocks : List Bytes) : ∀ hs : List Nat, hs.length = 8 →
    ((blocks.foldl sha256Compress hs).length = 8) := by
  induction blocks with
  | nil => intro hs h; simpa using h
  | cons b bs ih => intro hs h; exact ih _ (sha256Compress_length hs b h)

lemma flatten_map_wordToBytes_length (hs : List Nat) :
    ((hs.map wordToBytes).flatten).length = 4 * hs.length := by
  induction hs with
  | nil => rfl
  | cons w ws ih => simp [wordToBytes, ih]; omega

lemma sha256_length (m : Bytes) : (sha256 m).length = 32 := by
  unfold sha256
  rw [flatten_map_wordToBytes_length, foldl_sha256Compress_length _ _ (by rfl)]

lemma sha256_take_32 (m : Bytes) : (sha256 m).take 32 = sha256 m :=
  take_32_of_len _ (sha256_length m)

lemma memcmpNz_self (xs : Bytes) : memcmpNz xs xs = false := by
  induction xs with
  | nil => rfl
  | cons x t ih => simp [memcmpNz, ih]

lemma memcmpNz_false_iff (xs : Bytes) : ∀ ys : Bytes, xs.length = ys.length →
    (memcmpNz xs ys = false ↔ xs = ys) := by
  induction xs with
  | nil => intro ys h; cases ys <;> simp_all [memcmpNz]
  | cons x t ih =>
    intro ys h
    cases ys with
    | nil => simp_all
    | cons y u =>
      by_cases hxy : x = y
      · subst hxy
        have := ih u (by simpa using h)
        simp [memcmpNz, this]
      · simp [memcmpNz, hxy]

lemma memcmpSteps_of_len (xs : Bytes) : ∀ (ys : Bytes) (n : Nat),
    xs.length = n → ys.length = n →
    memcmpSteps xs ys = if xs = ys then n else firstDiff xs ys + 1 := by
  induction xs with
  | nil =>
    intro ys n h1 h2
    cases ys with
    | nil =>
      rw [List.length_nil] at h1
      simp [memcmpSteps, ← h1]
    | cons y u =>
      exfalso
      rw [List.length_nil] at h1
      rw [List.length_cons] at h2
      omega
  | cons x t ih =>
    intro ys n h1 h2
    cases ys with
    | nil =>
      exfalso
      rw [List.length_cons] at h1
      rw [List.length_nil] at h2
      omega
    | cons y u =>
      have hn : n = t.length + 1 := by simp at h1; omega
      have hu : u.length = t.length := by simp at h2; omega
      by_cases hxy : x = y
      · subst hxy
        rw [show memcmpSteps (x :: t) (x :: u) = 1 + memcmpSteps t u from by
          simp [memcmpSteps]]
        rw [ih u t.length rfl hu]
        by_cases he : t = u
        · subst he; simp [hn]; omega
        · have hne : (x :: t) ≠ (x :: u) := by
            intro hc; injection hc with h1c h2c; exact he h2c
          rw [if_neg he, if_neg hne]
          rw [show firstDiff (x :: t) (x :: u) = 1 + firstDiff t u from by
            simp [firstDiff]]
          omega
      · have hne : (x :: t) ≠ (y :: u) := by
          intro hc; injection hc with h1c h2c; exact hxy h1c
        rw [show memcmpSteps (x :: t) (y :: u) = 1 from by simp [memcmpSteps, hxy]]
        rw [if_neg hne]
        rw [show firstDiff (x :: t) (y :: u) = 0 from by simp [firstDiff, hxy]]


lemma auth_chalresp_hash_ok (chal key : Bytes) (hc : chal.length = 32)
    (hk : key.length = 32) :
    auth_chalresp_hash cryptoOk chal key = HashRes.ok (sha256 (chal ++ key)) := by
  simp [auth_chalresp_hash, cryptoOk, tc_sha256_init, tc_sha256_update, tc_sha256_final,
        AUTH_CHALLENGE_LEN, AUTH_SHARED_KEY_LEN, take_32_of_len chal hc, take_32_of_len key hk]

/-! ## Claim theorems -/

/-- C1: `auth_chalresp_hash` on a 32-byte nonce and the active 32-byte shared
key returns the SHA-256 digest of the nonce followed by the key (in that
order); it is deterministic (any two runs whose primitive calls all succeed
produce the same digest); and it returns the `CryptoError` code exactly when
one of the underlying SHA-256 primitive calls reports non-success. -/
theorem c1_auth_chalresp_hash_correct (co : CryptoOutcome) (nonce key : Bytes)
    (hn : nonce.length = 32) (hk : key.length = 32) :
    (auth_chalresp_hash co nonce key = HashRes.errCrypto ↔
      (co.upd1 = false ∨ co.upd2 = false ∨ co.fin = false)) ∧
    (co = cryptoOk →
      auth_chalresp_hash co nonce key = HashRes.ok (sha256 (nonce ++ key))) ∧
    (∀ co' : CryptoOutcome, co = cryptoOk → co' = cryptoOk →
      auth_chalresp_hash co nonce key = auth_chalresp_hash co' nonce key) := by
  refine ⟨?_, ?_, ?_⟩
  · rcases co with ⟨u1, u2, f⟩
    cases u1 <;> cases u2 <;> cases f <;>
      simp [auth_chalresp_hash, tc_sha256_init, tc_sha256_update, tc_sha256_final]
  · intro hco; subst hco; exact auth_chalresp_hash_ok nonce key hn hk
  · intro co' hco hco'; subst hco; subst hco'; rfl

/-- C1 witness: concrete 32-byte nonce and key. -/
theorem c1_witness :
    auth_chalresp_hash cryptoOk (List.replicate 32 0) (List.replicate 32 1) =
      HashRes.ok (sha256 (List.replicate 32 0 ++ List.replicate 32 1)) :=
  (c1_auth_chalresp_hash_correct cryptoOk (List.replicate 32 0) (List.replicate 32 1)
    (by simp) (by simp)).2.1 rfl

/-- C2 counterexample: the hash comparison is performed by `memcmp`, which
stops at the first differing byte, so the number of byte comparisons is not
independent of the secret-derived hash value: against the same received
buffer (all zeros), a computed hash differing in byte 0 costs 1 comparison
while a computed hash differing only in byte 31 costs 32. -/
theorem c2_memcmp_not_constant_time_cex :
    ¬ (∀ h1 h2 r : Bytes, h1.length = 32 → h2.length = 32 → r.length = 32 →
        memcmpSteps h1 r = memcmpSteps h2 r) := by
  intro hconst
  have h := hconst (1 :: List.replicate 31 0) (List.replicate 31 0 ++ [1])
    (List.replicate 32 0) (by simp) (by simp) (by simp)
  exact absurd h (by decide)

/-- C2 amended: the comparison of the locally computed hash with the received
value decides equality correctly, but it is a byte-wise early-exit `memcmp`:
when the values are equal all 32 bytes are compared, otherwise the number of
byte comparisons is one plus the index of the first differing byte, so the
comparison is not constant-time with respect to the secret-derived value. -/
theorem c2_memcmp_behavior :
    (∀ h r : Bytes, h.length = r.length → (memcmpNz h r = false ↔ h = r)) ∧
    (∀ h r : Bytes, h.length = 32 → r.length = 32 →
      memcmpSteps h r = if h = r then 32 else firstDiff h r + 1) ∧
    ¬ (∀ h1 h2 r : Bytes, h1.length = 32 → h2.length = 32 → r.length = 32 →
        memcmpSteps h1 r = memcmpSteps h2 r) := by
  refine ⟨fun h r hl => memcmpNz_false_iff h r hl, fun h r h32 r32 =>
    memcmpSteps_of_len h r 32 h32 r32, fun hconst => ?_⟩
  have h := hconst (List.replicate 32 0) (2 :: List.replicate 31 0)
    (List.replicate 32 0) (by simp) (by simp) (by simp)
  exact absurd h (by decide)

/-- C2 witness: the equality test at a concrete input. -/
theorem c2_witness : memcmpNz [1, 2, 3] [1, 2, 3] = false :=
  (c2_memcmp_behavior.1 [1, 2, 3] [1, 2, 3] rfl).mpr rfl

/-- C9 counterexample: a `flags` argument with no role bit and no method bit
at all is accepted by `auth_lib_init` (it returns success, not
`AUTH_ERROR_INVALID_PARAM`), although the claim requires exactly one role bit
and exactly one method bit. -/
theorem c9_flags_cex :
    (auth_lib_init false ⟨false, false, false, false⟩ none
      ⟨KeyPtr.defaultKey, []⟩).1 = AuthRet.success ∧
    (auth_lib_init false ⟨false, false, false, false⟩ none
      ⟨KeyPtr.defaultKey, []⟩).1 ≠ AuthRet.errInvalidParam := by
  exact ⟨rfl, by decide⟩

/-- C9 amended: `auth_lib_init` fails with `AUTH_ERROR_INVALID_PARAM` exactly
when the status callback is NULL, or both role bits are set, or both method
bits are set.  Flag words with neither role bit or with no method bit are
accepted (`auth_lib_checkflags` only rejects the two both-set combinations). -/
theorem c9_checkflags_exact (nullcb : Bool) (f : AuthFlags) (opt : Option OptParam)
    (ks : KeyState) :
    (auth_lib_init nullcb f opt ks).1 = AuthRet.errInvalidParam ↔
      (nullcb = true ∨ (f.client = true ∧ f.server = true) ∨
        (f.dtlsMethod = true ∧ f.chalrespMethod = true)) := by
  rcases f with ⟨c, s, d, m⟩
  rcases opt with _ | op
  · cases nullcb <;> cases c <;> cases s <;> cases d <;> cases m <;>
      simp [auth_lib_init, auth_lib_checkflags]
  · rcases op with _ | k <;> cases nullcb <;> cases c <;> cases s <;> cases d <;> cases m <;>
      simp [auth_lib_init, auth_lib_checkflags, auth_init_chalresp_method]

/-- C10: `auth_init_chalresp_method` with a NULL connection or parameter
pointer returns `AUTH_ERROR_INVALID_PARAM` and leaves the active key (pointer
and effective 32 bytes) unchanged; on success the active key equals the 32
caller-supplied bytes, copied into internal storage, so the active key no
longer depends on the caller's buffer contents. -/
theorem c10_key_install (connNull paramNull : Bool) (callerKey : Bytes) (s : KeyState)
    (hlen : callerKey.length = 32) :
    ((connNull = true ∨ paramNull = true) →
      auth_init_chalresp_method connNull paramNull callerKey s =
        (AuthRet.errInvalidParam, s) ∧
      ∀ buf, activeKey (auth_init_chalresp_method connNull paramNull callerKey s).2 buf =
        activeKey s buf) ∧
    (connNull = false → paramNull = false →
      (auth_init_chalresp_method connNull paramNull callerKey s).1 = AuthRet.success ∧
      ∀ laterBuf,
        activeKey (auth_init_chalresp_method connNull paramNull callerKey s).2 laterBuf =
          callerKey) := by
  have ht : callerKey.take 32 = callerKey := take_32_of_len callerKey hlen
  cases connNull <;> cases paramNull <;>
    simp [auth_init_chalresp_method, activeKey, ht]

/-- C10 witness: a concrete successful key installation. -/
theorem c10_witness :
    (auth_init_chalresp_method false false (List.replicate 32 5)
      ⟨KeyPtr.defaultKey, []⟩).1 = AuthRet.success ∧
    ∀ laterBuf,
      activeKey (auth_init_chalresp_method false false (List.replicate 32 5)
        ⟨KeyPtr.defaultKey, []⟩).2 laterBuf = List.replicate 32 5 :=
  (c10_key_install false false (List.replicate 32 5) ⟨KeyPtr.defaultKey, []⟩
    (by simp)).2 rfl rfl

lemma recvLoop_single_data (n : Nat) (bs : Bytes) (rest : List OStep)
    (hlen : bs.length = n) (hn : n ≠ 0) :
    recvLoop n [] (⟨RecvStep.data bs, false⟩ :: rest) =
      ([Ev.recv AUTH_RX_TIMEOUT_MSEC], LoopRes.done bs rest) := by
  cases rest with
  | nil => simp [recvLoop, hn, hlen]
  | cons o t => simp [recvLoop, hn, hlen]

/-- C4: a client session that receives a message 2 with a valid header whose
first 32 body bytes (`server_response`) differ from the client's computed
`H(N_c) = SHA-256(N_c ‖ K)` sends a `result` frame with result byte 1 and
then reaches the terminal status `authentication-failed`, sending no frames
after the challenge and that result frame (the full trace is exactly the
challenge send, the receive, the result send, and the terminal status). -/
theorem c4_client_msg2_mismatch (key nonce m2 junk : Bytes) (co2 : CryptoOutcome)
    (rtail : List OStep) (s2 : Int) (stail : List Int)
    (hk : key.length = 32) (hn : nonce.length = 32) (hm2 : m2.length = 67)
    (hsoh : parseSoh m2 = CHALLENGE_RESP_SOH)
    (hid : parseMsgId m2 = AUTH_SERVER_CHALRESP_MSG_ID)
    (hmm : memcmpNz (sha256 (nonce ++ key)) (serverResponseOf m2) = true) :
    clientRun key nonce
      { recvs := ⟨RecvStep.data m2, false⟩ :: rtail, sends := 35 :: s2 :: stail,
        cancelA := false, co1 := cryptoOk, co2 := co2, junk := junk } =
      some ([Ev.setStatus AuthStatus.started, Ev.send (clientChalFrame nonce),
             Ev.recv AUTH_RX_TIMEOUT_MSEC, Ev.send (chalrespResultFrame 1),
             Ev.setStatus AuthStatus.authFailed], AuthRet.errFailed) := by
  simp [clientRun, auth_chalresp_client, auth_client_send_challenge, sendOne,
        show sendAccepted 35 35 = true from by decide,
        recvLoop_single_data 67 m2 rtail hm2 (by omega),
        auth_client_recv_chal_resp, auth_check_msg, hsoh, hid,
        auth_chalresp_hash_ok nonce key hn hk, hmm]

set_option maxRecDepth 100000 in
/-- C4 witness: a concrete mismatching message 2. -/
theorem c4_witness :
    clientRun (List.replicate 32 0) (List.replicate 32 1)
      { recvs := [⟨RecvStep.data ([0xA2, 0x65, 2] ++ List.replicate 32 9 ++
                    List.replicate 32 7), false⟩],
        sends := [35, 35], cancelA := false, co1 := cryptoOk, co2 := cryptoOk,
        junk := [] } =
      some ([Ev.setStatus AuthStatus.started,
             Ev.send (clientChalFrame (List.replicate 32 1)),
             Ev.recv AUTH_RX_TIMEOUT_MSEC, Ev.send (chalrespResultFrame 1),
             Ev.setStatus AuthStatus.authFailed], AuthRet.errFailed) :=
  c4_client_msg2_mismatch (List.replicate 32 0) (List.replicate 32 1)
    ([0xA2, 0x65, 2] ++ List.replicate 32 9 ++ List.replicate 32 7) [] cryptoOk
    [] 35 [] (by decide) (by decide) (by decide) (by decide) (by decide) (by decide)

/-- C3: server processing of message 3.  The 3-byte header is read first.  If
the received id is the result id (4), the remaining result byte is consumed
and the session terminates `authentication-failed`.  Otherwise, after reading
the 32-byte body, a mismatch against the server's `H(N_s)` makes the server
send a result frame with result byte 1 (non-zero) and terminate
`authentication-failed`, while a match makes it send a result frame with
result byte 0 and terminate `successful`. -/
theorem c3_server_msg3_processing (key snonce m1 hdr3 junk : Bytes)
    (hk : key.length = 32) (hsn : snonce.length = 32)
    (hm1 : m1.length = 35) (h1soh : parseSoh m1 = CHALLENGE_RESP_SOH)
    (h1id : parseMsgId m1 = AUTH_CLIENT_CHAL_MSG_ID)
    (hh3 : hdr3.length = 3) :
    (∀ (rb : Bytes) (rtail : List OStep) (stail : List Int),
      rb.length = 1 → parseMsgId hdr3 = AUTH_CHALRESP_RESULT_MSG_ID →
      serverRun key snonce
        { recvs := ⟨RecvStep.data m1, false⟩ :: ⟨RecvStep.data hdr3, false⟩ ::
                     ⟨RecvStep.data rb, false⟩ :: rtail,
          sends := 67 :: stail, cancelA := false, co1 := cryptoOk, co2 := cryptoOk,
          junk := junk } =
        some ([Ev.setStatus AuthStatus.started, Ev.recv AUTH_RX_TIMEOUT_MSEC,
               Ev.send (serverChalRespFrame (sha256 (clientChallengeOf m1 ++ key)) snonce),
               Ev.recv AUTH_RX_TIMEOUT_MSEC, Ev.recv AUTH_RX_TIMEOUT_MSEC,
               Ev.setStatus AuthStatus.authFailed], AuthRet.errFailed)) ∧
    (∀ (body : Bytes) (rtail : List OStep) (stail : List Int),
      body.length = 32 → parseMsgId hdr3 ≠ AUTH_CHALRESP_RESULT_MSG_ID →
      memcmpNz (sha256 (snonce ++ key)) body = true →
      serverRun key snonce
        { recvs := ⟨RecvStep.data m1, false⟩ :: ⟨RecvStep.data hdr3, false⟩ ::
                     ⟨RecvStep.data body, false⟩ :: rtail,
          sends := 67 :: 4 :: stail, cancelA := false, co1 := cryptoOk, co2 := cryptoOk,
          junk := junk } =
        some ([Ev.setStatus AuthStatus.started, Ev.recv AUTH_RX_TIMEOUT_MSEC,
               Ev.send (serverChalRespFrame (sha256 (clientChallengeOf m1 ++ key)) snonce),
               Ev.recv AUTH_RX_TIMEOUT_MSEC, Ev.recv AUTH_RX_TIMEOUT_MSEC,
               Ev.send (chalrespResultFrame 1),
               Ev.setStatus AuthStatus.authFailed], AuthRet.errFailed)) ∧
    (∀ (body : Bytes) (rtail : List OStep) (stail : List Int),
      body.length = 32 → parseMsgId hdr3 ≠ AUTH_CHALRESP_RESULT_MSG_ID →
      memcmpNz (sha256 (snonce ++ key)) body = false →
      serverRun key snonce
        { recvs := ⟨RecvStep.data m1, false⟩ :: ⟨RecvStep.data hdr3, false⟩ ::
                     ⟨RecvStep.data body, false⟩ :: rtail,
          sends := 67 :: 4 :: stail, cancelA := false, co1 := cryptoOk, co2 := cryptoOk,
          junk := junk } =
        some ([Ev.setStatus AuthStatus.started, Ev.recv AUTH_RX_TIMEOUT_MSEC,
               Ev.send (serverChalRespFrame (sha256 (clientChallengeOf m1 ++ key)) snonce),
               Ev.recv AUTH_RX_TIMEOUT_MSEC, Ev.recv AUTH_RX_TIMEOUT_MSEC,
               Ev.send (chalrespResultFrame 0),
               Ev.setStatus AuthStatus.successful], AuthRet.success)) := by
  have hcc : (clientChallengeOf m1).length = 32 := by simp [clientChallengeOf, hm1]
  refine ⟨?_, ?_, ?_⟩
  · intro rb rtail stail hrb hid4
    simp [serverRun, auth_chalresp_server, auth_server_recv_challenge,
          auth_server_recv_chalresp, auth_server_recv_msg, sendOne,
          show sendAccepted 67 67 = true from by decide,
          recvLoop_single_data 35 m1 _ hm1 (by omega),
          recvLoop_single_data 3 hdr3 _ hh3 (by omega),
          recvLoop_single_data 1 rb rtail hrb (by omega),
          auth_check_msg, h1soh, h1id, hid4,
          auth_chalresp_hash_ok (clientChallengeOf m1) key hcc hk]
  · intro body rtail stail hbody hid4 hmm
    simp [serverRun, auth_chalresp_server, auth_server_recv_challenge,
          auth_server_recv_chalresp, auth_server_recv_msg, sendOne,
          show sendAccepted 67 67 = true from by decide,
          show sendAccepted 4 4 = true from by decide,
          recvLoop_single_data 35 m1 _ hm1 (by omega),
          recvLoop_single_data 3 hdr3 _ hh3 (by omega),
          recvLoop_single_data 32 body rtail hbody (by omega),
          auth_check_msg, h1soh, h1id, hid4,
          auth_chalresp_hash_ok (clientChallengeOf m1) key hcc hk,
          auth_chalresp_hash_ok snonce key hsn hk, hmm]
  · intro body rtail stail hbody hid4 hmm
    simp [serverRun, auth_chalresp_server, auth_server_recv_challenge,
          auth_server_recv_chalresp, auth_server_recv_msg, sendOne,
          show sendAccepted 67 67 = true from by decide,
          show sendAccepted 4 4 = true from by decide,
          recvLoop_single_data 35 m1 _ hm1 (by omega),
          recvLoop_single_data 3 hdr3 _ hh3 (by omega),
          recvLoop_single_data 32 body rtail hbody (by omega),
          auth_check_msg, h1soh, h1id, hid4,
          auth_chalresp_hash_ok (clientChallengeOf m1) key hcc hk,
          auth_chalresp_hash_ok snonce key hsn hk, hmm]

/-- C3 witness: a concrete result-id message 3 (the client rejected the
server), applied to the first branch of the processing theorem. -/
theorem c3_witness :
    serverRun (List.replicate 32 0) (List.replicate 32 1)
      { recvs := [⟨RecvStep.data ([0xA2, 0x65, 1] ++ List.replicate 32 2), false⟩,
                  ⟨RecvStep.data [0xA2, 0x65, 4], false⟩,
                  ⟨RecvStep.data [1], false⟩],
        sends := [67], cancelA := false, co1 := cryptoOk, co2 := cryptoOk,
        junk := [] } =
      some ([Ev.setStatus AuthStatus.started, Ev.recv AUTH_RX_TIMEOUT_MSEC,
             Ev.send (serverChalRespFrame
               (sha256 (clientChallengeOf ([0xA2, 0x65, 1] ++ List.replicate 32 2) ++
                 List.replicate 32 0)) (List.replicate 32 1)),
             Ev.recv AUTH_RX_TIMEOUT_MSEC, Ev.recv AUTH_RX_TIMEOUT_MSEC,
             Ev.setStatus AuthStatus.authFailed], AuthRet.errFailed) :=
  (c3_server_msg3_processing (List.replicate 32 0) (List.replicate 32 1)
    ([0xA2, 0x65, 1] ++ List.replicate 32 2) [0xA2, 0x65, 4] []
    (by decide) (by decide) (by decide) (by decide) (by decide) (by decide)).1
    [1] [] [] (by decide) (by decide)

lemma afterObs_append_none (a b : List Ev) (h : afterObs a = none) :
    afterObs (a ++ b) = afterObs b := by
  induction a with
  | nil => simp
  | cons e t ih => cases e <;> simp_all [afterObs]

lemma afterObs_append_some (a b s : List Ev) (h : afterObs a = some s) :
    afterObs (a ++ b) = some (s ++ b) := by
  induction a with
  | nil => simp [afterObs] at h
  | cons e t ih => cases e <;> simp_all [afterObs]


lemma recvLoop_cancel (n : Nat) (acc : Bytes) (st : RecvStep) (rest : List OStep)
    (h0 : n ≠ 0) :
    recvLoop n acc (⟨st, true⟩ :: rest) =
      ([Ev.recv AUTH_RX_TIMEOUT_MSEC, Ev.cancelObs], LoopRes.canceled rest) := by
  simp only [recvLoop, if_neg h0]
  rfl

lemma recvLoop_again (n : Nat) (acc : Bytes) (rest : List OStep) (h0 : n ≠ 0) :
    recvLoop n acc (⟨RecvStep.again, false⟩ :: rest) =
      (Ev.recv AUTH_RX_TIMEOUT_MSEC :: (recvLoop n acc rest).1,
       (recvLoop n acc rest).2) := by
  simp only [recvLoop, if_neg h0]
  rfl

lemma recvLoop_fail (n : Nat) (acc : Bytes) (e : Int) (rest : List OStep) (h0 : n ≠ 0) :
    recvLoop n acc (⟨RecvStep.fail e, false⟩ :: rest) =
      ([Ev.recv AUTH_RX_TIMEOUT_MSEC], LoopRes.recvErr rest) := by
  simp only [recvLoop, if_neg h0]
  rfl

lemma recvLoop_data_bad (n : Nat) (acc bs : Bytes) (rest : List OStep) (h0 : n ≠ 0)
    (hb : bs.length = 0 ∨ n < bs.length) :
    recvLoop n acc (⟨RecvStep.data bs, false⟩ :: rest) =
      ([Ev.recv AUTH_RX_TIMEOUT_MSEC], LoopRes.bad) := by
  simp only [recvLoop, if_neg h0]
  exact if_pos hb

lemma recvLoop_data_ok (n : Nat) (acc bs : Bytes) (rest : List OStep) (h0 : n ≠ 0)
    (hb : ¬(bs.length = 0 ∨ n < bs.length)) :
    recvLoop n acc (⟨RecvStep.data bs, false⟩ :: rest) =
      (Ev.recv AUTH_RX_TIMEOUT_MSEC :: (recvLoop (n - bs.length) (acc ++ bs) rest).1,
       (recvLoop (n - bs.length) (acc ++ bs) rest).2) := by
  simp only [recvLoop, if_neg h0]
  exact if_neg hb

lemma recvLoop_evs_mem (ora : List OStep) : ∀ (n : Nat) (acc : Bytes),
    ∀ e ∈ (recvLoop n acc ora).1,
      e = Ev.recv AUTH_RX_TIMEOUT_MSEC ∨ e = Ev.cancelObs := by
  induction ora with
  | nil =>
    intro n acc e he
    by_cases h0 : n = 0 <;> simp [recvLoop, h0] at he
  | cons o rest ih =>
    intro n acc e he
    obtain ⟨st, ca⟩ := o
    by_cases h0 : n = 0
    · simp [recvLoop, h0] at he
    · cases ca
      · cases st with
        | again =>
          rw [recvLoop_again n acc rest h0] at he
          dsimp only at he
          rcases List.mem_cons.mp he with he | he
          · left; exact he
          · exact ih n acc e he
        | fail err =>
          rw [recvLoop_fail n acc err rest h0] at he
          simp at he
          left; exact he
        | data bs =>
          by_cases hb : bs.length = 0 ∨ n < bs.length
          · rw [recvLoop_data_bad n acc bs rest h0 hb] at he
            simp at he
            left; exact he
          · rw [recvLoop_data_ok n acc bs rest h0 hb] at he
            dsimp only at he
            rcases List.mem_cons.mp he with he | he
            · left; exact he
            · exact ih (n - bs.length) (acc ++ bs) e he
      · rw [recvLoop_cancel n acc st rest h0] at he
        simp at he
        rcases he with he | he
        · left; exact he
        · right; exact he

lemma recvLoop_obs (ora : List OStep) : ∀ (n : Nat) (acc : Bytes),
    (∃ rest', (recvLoop n acc ora).2 = LoopRes.canceled rest' ∧
        afterObs (recvLoop n acc ora).1 = some []) ∨
    ((∀ rest', (recvLoop n acc ora).2 ≠ LoopRes.canceled rest') ∧
        afterObs (recvLoop n acc ora).1 = none) := by
  induction ora with
  | nil =>
    intro n acc
    right
    by_cases h0 : n = 0 <;> simp [recvLoop, h0, afterObs]
  | cons o rest ih =>
    intro n acc
    obtain ⟨st, ca⟩ := o
    by_cases h0 : n = 0
    · right; simp [recvLoop, h0, afterObs]
    · cases ca
      · cases st with
        | again =>
          rw [recvLoop_again n acc rest h0]
          dsimp only
          rcases ih n acc with ⟨r', hr, ha⟩ | ⟨hr, ha⟩
          · left; exact ⟨r', hr, by simp [afterObs, ha]⟩
          · right; exact ⟨hr, by simp [afterObs, ha]⟩
        | fail err =>
          rw [recvLoop_fail n acc err rest h0]
          right; simp [afterObs]
        | data bs =>
          by_cases hb : bs.length = 0 ∨ n < bs.length
          · rw [recvLoop_data_bad n acc bs rest h0 hb]
            right; simp [afterObs]
          · rw [recvLoop_data_ok n acc bs rest h0 hb]
            dsimp only
            rcases ih (n - bs.length) (acc ++ bs) with ⟨r', hr, ha⟩ | ⟨hr, ha⟩
            · left; exact ⟨r', hr, by simp [afterObs, ha]⟩
            · right; exact ⟨hr, by simp [afterObs, ha]⟩
      · rw [recvLoop_cancel n acc st rest h0]
        left; exact ⟨rest, rfl, by simp [afterObs]⟩

lemma recvLoop_clear (ora : List OStep) : ∀ (n : Nat) (acc : Bytes),
    (∀ o ∈ ora, o.cancelAfter = false) →
    (∀ rest', (recvLoop n acc ora).2 ≠ LoopRes.canceled rest') ∧
    (∀ bs rest', (recvLoop n acc ora).2 = LoopRes.done bs rest' →
      ∀ o ∈ rest', o.cancelAfter = false) := by
  induction ora with
  | nil =>
    intro n acc _
    by_cases h0 : n = 0 <;> simp [recvLoop, h0]
  | cons o rest ih =>
    intro n acc hclear
    obtain ⟨st, ca⟩ := o
    have hca : ca = false := hclear ⟨st, ca⟩ (List.mem_cons_self _ _)
    subst hca
    have hrest : ∀ o ∈ rest, o.cancelAfter = false :=
      fun o ho => hclear o (List.mem_cons_of_mem _ ho)
    by_cases h0 : n = 0
    · constructor
      · intro r'; simp [recvLoop, h0]
      · intro bs rest' hdone
        simp [recvLoop, h0] at hdone
        intro o ho
        rw [← hdone.2] at ho
        exact hclear o ho
    · cases st with
      | again =>
        rcases ih n acc hrest with ⟨h1, h2⟩
        rw [recvLoop_again n acc rest h0]
        exact ⟨fun r' => h1 r', fun bs rest' hdone => h2 bs rest' hdone⟩
      | fail err =>
        rw [recvLoop_fail n acc err rest h0]
        constructor
        · intro r'; simp
        · intro bs rest' hdone; simp at hdone
      | data bs0 =>
        by_cases hb : bs0.length = 0 ∨ n < bs0.length
        · rw [recvLoop_data_bad n acc bs0 rest h0 hb]
          constructor
          · intro r'; simp
          · intro bs rest' hdone; simp at hdone
        · rcases ih (n - bs0.length) (acc ++ bs0) hrest with ⟨h1, h2⟩
          rw [recvLoop_data_ok n acc bs0 rest h0 hb]
          exact ⟨fun r' => h1 r', fun bs rest' hdone => h2 bs rest' hdone⟩

lemma terminalEmitCount_append (a b : List Ev) :
    terminalEmitCount (a ++ b) = terminalEmitCount a + terminalEmitCount b :=
  List.countP_append _ _ _

lemma terminalEmitCount_recvLoop (n : Nat) (acc : Bytes) (ora : List OStep) :
    terminalEmitCount (recvLoop n acc ora).1 = 0 := by
  apply List.countP_eq_zero.mpr
  intro e he
  rcases recvLoop_evs_mem ora n acc e he with h | h <;> subst h <;> decide

lemma all_evRecvOk_recvLoop (n : Nat) (acc : Bytes) (ora : List OStep) :
    (recvLoop n acc ora).1.all evRecvOk = true := by
  apply List.all_eq_true.mpr
  intro e he
  rcases recvLoop_evs_mem ora n acc e he with h | h <;> subst h <;> decide

lemma accr_spec {co1 co2 : CryptoOutcome} {key nonce : Bytes} {recvs : List OStep}
    {sends : List Int} {evs : List Ev} {st : AuthStatus} {suc : Bool}
    {recvs2 : List OStep} {sends2 : List Int}
    (h : auth_client_recv_chal_resp co1 co2 key nonce recvs sends =
      some (evs, st, suc, recvs2, sends2)) :
    terminalEmitCount evs = 0 ∧ evs.all evRecvOk = true ∧
    (suc = false → isTerminal st = true) ∧
    (afterObs evs = none ∨
      (afterObs evs = some [] ∧ st = AuthStatus.canceled ∧ suc = false)) ∧
    ((∀ o ∈ recvs, o.cancelAfter = false) → suc = true →
      ∀ o ∈ recvs2, o.cancelAfter = false) := by
  rw [auth_client_recv_chal_resp] at h
  rcases hre : recvLoop 67 [] recvs with ⟨evsl, res⟩
  rw [hre] at h
  have hcount : terminalEmitCount evsl = 0 := by
    have := terminalEmitCount_recvLoop 67 [] recvs
    rw [hre] at this; exact this
  have hall : evsl.all evRecvOk = true := by
    have := all_evRecvOk_recvLoop 67 [] recvs
    rw [hre] at this; exact this
  have hobs := recvLoop_obs recvs 67 []
  rw [hre] at hobs
  have hclr := recvLoop_clear recvs 67 []
  rw [hre] at hclr
  cases res with
  | noFuel => exact absurd h (by simp)
  | bad => exact absurd h (by simp)
  | canceled rest =>
    have hao : afterObs evsl = some [] := by
      rcases hobs with ⟨r', _, ha⟩ | ⟨hr, _⟩
      · exact ha
      · exact absurd rfl (hr rest)
    obtain ⟨h1, h2, h3, h4, h5⟩ : evs = evsl ∧ st = AuthStatus.canceled ∧
        suc = false ∧ recvs2 = rest ∧ sends2 = sends := by
      simpa using h.symm
    subst h1; subst h2; subst h3; subst h4; subst h5
    exact ⟨hcount, hall, fun _ => rfl, Or.inr ⟨hao, rfl, rfl⟩,
           fun _ hsuc => absurd hsuc (by simp)⟩
  | recvErr rest =>
    have hao : afterObs evsl = none := by
      rcases hobs with ⟨r', hr, _⟩ | ⟨_, ha⟩
      · exact absurd hr (by simp)
      · exact ha
    obtain ⟨h1, h2, h3, h4, h5⟩ : evs = evsl ∧ st = AuthStatus.failed ∧
        suc = false ∧ recvs2 = rest ∧ sends2 = sends := by
      simpa using h.symm
    subst h1; subst h2; subst h3; subst h4; subst h5
    exact ⟨hcount, hall, fun _ => rfl, Or.inl hao,
           fun _ hsuc => absurd hsuc (by simp)⟩
  | done m2 rest =>
    dsimp only at h
    have hao : afterObs evsl = none := by
      rcases hobs with ⟨r', hr, _⟩ | ⟨_, ha⟩
      · exact absurd hr (by simp)
      · exact ha
    have hrest : (∀ o ∈ recvs, o.cancelAfter = false) →
        ∀ o ∈ rest, o.cancelAfter = false := by
      intro hc
      exact (hclr hc).2 m2 rest rfl
    by_cases hchk : auth_check_msg m2 AUTH_SERVER_CHALRESP_MSG_ID
    · rw [if_pos hchk] at h
      cases hh1 : auth_chalresp_hash co1 nonce key with
      | errCrypto =>
        rw [hh1] at h
        obtain ⟨h1, h2, h3, h4, h5⟩ : evs = evsl ∧ st = AuthStatus.failed ∧
            suc = false ∧ recvs2 = rest ∧ sends2 = sends := by
          simpa using h.symm
        subst h1; subst h2; subst h3; subst h4; subst h5
        exact ⟨hcount, hall, fun _ => rfl, Or.inl hao,
               fun _ hsuc => absurd hsuc (by simp)⟩
      | ok d =>
        rw [hh1] at h
        dsimp only at h
        by_cases hmm : memcmpNz d (serverResponseOf m2)
        · rw [if_pos hmm] at h
          cases sends with
          | nil => exact absurd h (by simp [sendOne])
          | cons s1 srest =>
            rw [show sendOne (s1 :: srest) = some (s1, srest) from rfl] at h
            dsimp only at h
            obtain ⟨h1, h2, h3, h4, h5⟩ :
                evs = evsl ++ [Ev.send (chalrespResultFrame 1)] ∧
                st = AuthStatus.authFailed ∧ suc = false ∧ recvs2 = rest ∧
                sends2 = srest := by
              simpa using h.symm
            subst h1; subst h2; subst h3; subst h4; subst h5
            refine ⟨?_, ?_, fun _ => rfl, Or.inl ?_,
                    fun _ hsuc => absurd hsuc (by simp)⟩
            · rw [terminalEmitCount_append, hcount]; decide
            · rw [List.all_append, hall]; decide
            · rw [afterObs_append_none _ _ hao]; decide
        · rw [if_neg hmm] at h
          cases hh2 : auth_chalresp_hash co2 (serverChallengeOf m2) key with
          | errCrypto =>
            rw [hh2] at h
            obtain ⟨h1, h2, h3, h4, h5⟩ : evs = evsl ∧ st = AuthStatus.failed ∧
                suc = false ∧ recvs2 = rest ∧ sends2 = sends := by
              simpa using h.symm
            subst h1; subst h2; subst h3; subst h4; subst h5
            exact ⟨hcount, hall, fun _ => rfl, Or.inl hao,
                   fun _ hsuc => absurd hsuc (by simp)⟩
          | ok resp =>
            rw [hh2] at h
            dsimp only at h
            cases sends with
            | nil => exact absurd h (by simp [sendOne])
            | cons s1 srest =>
              rw [show sendOne (s1 :: srest) = some (s1, srest) from rfl] at h
              dsimp only at h
              by_cases hacc : sendAccepted s1 35
              · rw [if_pos hacc] at h
                obtain ⟨h1, h2, h3, h4, h5⟩ :
                    evs = evsl ++ [Ev.send (clientChalRespFrame resp)] ∧
                    st = AuthStatus.inProcess ∧ suc = true ∧ recvs2 = rest ∧
                    sends2 = srest := by
                  simpa using h.symm
                subst h1; subst h2; subst h3; subst h4; subst h5
                refine ⟨?_, ?_, fun hf => absurd hf (by simp), Or.inl ?_,
                        fun hc _ => hrest hc⟩
                · rw [terminalEmitCount_append, hcount]
                  simp [terminalEmitCount, List.countP_cons, evIsTerminalStatus]
                · rw [List.all_append, hall]
                  simp [evRecvOk]
                · rw [afterObs_append_none _ _ hao]
                  simp [afterObs]
              · rw [if_neg hacc] at h
                obtain ⟨h1, h2, h3, h4, h5⟩ :
                    evs = evsl ++ [Ev.send (clientChalRespFrame resp)] ∧
                    st = AuthStatus.failed ∧ suc = false ∧ recvs2 = rest ∧
                    sends2 = srest := by
                  simpa using h.symm
                subst h1; subst h2; subst h3; subst h4; subst h5
                refine ⟨?_, ?_, fun _ => rfl, Or.inl ?_,
                        fun _ hsuc => absurd hsuc (by simp)⟩
                · rw [terminalEmitCount_append, hcount]
                  simp [terminalEmitCount, List.countP_cons, evIsTerminalStatus]
                · rw [List.all_append, hall]
                  simp [evRecvOk]
                · rw [afterObs_append_none _ _ hao]
                  simp [afterObs]
    · rw [if_neg hchk] at h
      obtain ⟨h1, h2, h3, h4, h5⟩ : evs = evsl ∧ st = AuthStatus.failed ∧
          suc = false ∧ recvs2 = rest ∧ sends2 = sends := by
        simpa using h.symm
      subst h1; subst h2; subst h3; subst h4; subst h5
      exact ⟨hcount, hall, fun _ => rfl, Or.inl hao,
             fun _ hsuc => absurd hsuc (by simp)⟩

lemma noCancelEnv_cancelA {env : Env} (h : noCancelEnv env = true) :
    env.cancelA = false := by
  simp [noCancelEnv] at h
  exact h.1

lemma noCancelEnv_recvs {env : Env} (h : noCancelEnv env = true) :
    ∀ o ∈ env.recvs, o.cancelAfter = false := by
  simp [noCancelEnv, List.all_eq_true] at h
  intro o ho
  simpa using h.2 o ho

lemma auth_chalresp_client_spec {key nonce : Bytes} {env : Env} {t : List Ev}
    {r : AuthRet} (h : auth_chalresp_client key nonce env = some (t, r)) :
    t.all evRecvOk = true ∧
    (∀ post, afterObs t = some post →
      post = [] ∨ post = [Ev.setStatus AuthStatus.canceled]) ∧
    (noCancelEnv env = true → terminalEmitCount t = 1) := by
  rw [auth_chalresp_client] at h
  rcases henv : env.sends with _ | ⟨s1, srest⟩
  · rw [henv] at h
    exact absurd h (by simp [auth_client_send_challenge, sendOne])
  · rw [henv] at h
    rw [show auth_client_send_challenge nonce (s1 :: srest) =
      some ([Ev.send (clientChalFrame nonce)], sendAccepted s1 35, srest) from rfl] at h
    dsimp only at h
    by_cases hok : sendAccepted s1 35 = true
    · rw [if_pos hok] at h
      by_cases hcA : env.cancelA = true
      · rw [if_pos hcA] at h
        obtain ⟨h1, h2⟩ : t = [Ev.send (clientChalFrame nonce)] ++ [Ev.cancelObs] ∧
            r = AuthRet.errCanceled := by simpa using h.symm
        subst h1; subst h2
        refine ⟨by simp [evRecvOk], ?_, ?_⟩
        · intro post hpost
          simp [afterObs] at hpost
          left; exact hpost
        · intro hnc
          rw [noCancelEnv_cancelA hnc] at hcA
          exact absurd hcA (by simp)
      · rw [if_neg hcA] at h
        rcases hacc : auth_client_recv_chal_resp env.co1 env.co2 key nonce env.recvs srest
          with _ | ⟨evs2, st, suc, recvs2, sends2⟩
        · rw [hacc] at h; exact absurd h (by simp)
        · rw [hacc] at h
          dsimp only at h
          obtain ⟨c1, c2, c3, c4, c5⟩ := accr_spec hacc
          have hpre : ∀ X : List Ev,
              afterObs ([Ev.send (clientChalFrame nonce)] ++ X) = afterObs X :=
            fun X => afterObs_append_none _ _ (by simp [afterObs])
          cases suc with
          | false =>
            rw [if_neg (by simp)] at h
            obtain ⟨h1, h2⟩ : t = [Ev.send (clientChalFrame nonce)] ++ evs2 ++
                [Ev.setStatus st] ∧ r = AuthRet.errFailed := by simpa using h.symm
            subst h1; subst h2
            refine ⟨?_, ?_, ?_⟩
            · simp [List.all_append, c2, evRecvOk]
            · intro post hpost
              rw [List.append_assoc, hpre] at hpost
              rcases c4 with hnone | ⟨hsome, hst, _⟩
              · rw [afterObs_append_none _ _ hnone] at hpost
                simp [afterObs] at hpost
              · rw [afterObs_append_some _ _ _ hsome] at hpost
                simp at hpost
                right; rw [← hpost, hst]
            · intro _
              rw [terminalEmitCount_append, terminalEmitCount_append, c1]
              have : isTerminal st = true := c3 rfl
              simp [terminalEmitCount, List.countP_cons, evIsTerminalStatus, this]
          | true =>
            rw [if_pos (by simp)] at h
            have hc4 : afterObs evs2 = none := by
              rcases c4 with hnone | ⟨_, _, hfalse⟩
              · exact hnone
              · exact absurd hfalse (by simp)
            rcases hr2 : recvs2 with _ | ⟨o, orest⟩
            · rw [hr2] at h; exact absurd h (by simp)
            · rw [hr2] at h
              dsimp only at h
              by_cases hca2 : o.cancelAfter = true
              · rw [if_pos hca2] at h
                obtain ⟨h1, h2⟩ : t = [Ev.send (clientChalFrame nonce)] ++ evs2 ++
                    [Ev.recv AUTH_RX_TIMEOUT_MSEC, Ev.cancelObs] ∧
                    r = AuthRet.errCanceled := by simpa using h.symm
                subst h1; subst h2
                refine ⟨?_, ?_, ?_⟩
                · simp [List.all_append, c2, evRecvOk]
                · intro post hpost
                  rw [List.append_assoc, hpre, afterObs_append_none _ _ hc4] at hpost
                  simp [afterObs] at hpost
                  left; exact hpost
                · intro hnc
                  have := c5 (noCancelEnv_recvs hnc) rfl
                  rw [hr2] at this
                  have ho := this o (List.mem_cons_self _ _)
                  rw [ho] at hca2
                  exact absurd hca2 (by simp)
              · rw [if_neg hca2] at h
                have hfin : ∀ (s : AuthStatus) (rr : AuthRet),
                    isTerminal s = true →
                    t = [Ev.send (clientChalFrame nonce)] ++ evs2 ++
                      [Ev.recv AUTH_RX_TIMEOUT_MSEC, Ev.setStatus s] →
                    r = rr →
                    t.all evRecvOk = true ∧
                    (∀ post, afterObs t = some post →
                      post = [] ∨ post = [Ev.setStatus AuthStatus.canceled]) ∧
                    (noCancelEnv env = true → terminalEmitCount t = 1) := by
                  intro s rr hterm h1 _
                  subst h1
                  refine ⟨?_, ?_, ?_⟩
                  · simp [List.all_append, c2, evRecvOk]
                  · intro post hpost
                    rw [List.append_assoc, hpre, afterObs_append_none _ _ hc4] at hpost
                    simp [afterObs] at hpost
                  · intro _
                    rw [terminalEmitCount_append, terminalEmitCount_append, c1]
                    simp [terminalEmitCount, List.countP_cons, evIsTerminalStatus, hterm]
                cases hstep : o.step with
                | again =>
                  rw [hstep] at h
                  obtain ⟨h1, h2⟩ : t = [Ev.send (clientChalFrame nonce)] ++ evs2 ++
                      [Ev.recv AUTH_RX_TIMEOUT_MSEC,
                       Ev.setStatus AuthStatus.authFailed] ∧
                      r = AuthRet.errFailed := by simpa using h.symm
                  exact hfin AuthStatus.authFailed AuthRet.errFailed rfl h1 h2
                | fail e =>
                  rw [hstep] at h
                  obtain ⟨h1, h2⟩ : t = [Ev.send (clientChalFrame nonce)] ++ evs2 ++
                      [Ev.recv AUTH_RX_TIMEOUT_MSEC,
                       Ev.setStatus AuthStatus.authFailed] ∧
                      r = AuthRet.errFailed := by simpa using h.symm
                  exact hfin AuthStatus.authFailed AuthRet.errFailed rfl h1 h2
                | data bs =>
                  rw [hstep] at h
                  dsimp only at h
                  by_cases hbs : bs.length = 0 ∨ 4 < bs.length
                  · rw [if_pos hbs] at h; exact absurd h (by simp)
                  · rw [if_neg hbs] at h
                    by_cases hb4 : bs.length ≠ 4
                    · rw [if_pos hb4] at h
                      obtain ⟨h1, h2⟩ : t = [Ev.send (clientChalFrame nonce)] ++ evs2 ++
                          [Ev.recv AUTH_RX_TIMEOUT_MSEC,
                           Ev.setStatus AuthStatus.authFailed] ∧
                          r = AuthRet.errFailed := by simpa using h.symm
                      exact hfin AuthStatus.authFailed AuthRet.errFailed rfl h1 h2
                    · rw [if_neg hb4] at h
                      by_cases hchk : auth_check_msg bs AUTH_CHALRESP_RESULT_MSG_ID = true
                      · rw [if_pos hchk] at h
                        by_cases hres : resultByteOf bs = 0
                        · rw [if_pos hres] at h
                          obtain ⟨h1, h2⟩ : t = [Ev.send (clientChalFrame nonce)] ++ evs2 ++
                              [Ev.recv AUTH_RX_TIMEOUT_MSEC,
                               Ev.setStatus AuthStatus.successful] ∧
                              r = AuthRet.success := by simpa using h.symm
                          exact hfin AuthStatus.successful AuthRet.success rfl h1 h2
                        · rw [if_neg hres] at h
                          obtain ⟨h1, h2⟩ : t = [Ev.send (clientChalFrame nonce)] ++ evs2 ++
                              [Ev.recv AUTH_RX_TIMEOUT_MSEC,
                               Ev.setStatus AuthStatus.authFailed] ∧
                              r = AuthRet.errFailed := by simpa using h.symm
                          exact hfin AuthStatus.authFailed AuthRet.errFailed rfl h1 h2
                      · rw [if_neg hchk] at h
                        obtain ⟨h1, h2⟩ : t = [Ev.send (clientChalFrame nonce)] ++ evs2 ++
                            [Ev.recv AUTH_RX_TIMEOUT_MSEC,
                             Ev.setStatus AuthStatus.authFailed] ∧
                            r = AuthRet.errFailed := by simpa using h.symm
                        exact hfin AuthStatus.authFailed AuthRet.errFailed rfl h1 h2
    · rw [if_neg hok] at h
      obtain ⟨h1, h2⟩ : t = [Ev.send (clientChalFrame nonce)] ++
          [Ev.setStatus AuthStatus.failed] ∧ r = AuthRet.errFailed := by
        simpa using h.symm
      subst h1; subst h2
      refine ⟨by simp [evRecvOk], ?_, ?_⟩
      · intro post hpost
        simp [afterObs] at hpost
      · intro _
        simp [terminalEmitCount, List.countP_cons, evIsTerminalStatus, isTerminal]

lemma clientRun_spec {key nonce : Bytes} {env : Env} {t : List Ev} {r : AuthRet}
    (h : clientRun key nonce env = some (t, r)) :
    t.all evRecvOk = true ∧
    (∀ post, afterObs t = some post →
      post = [] ∨ post = [Ev.setStatus AuthStatus.canceled]) ∧
    (noCancelEnv env = true → terminalEmitCount t = 1) := by
  rw [clientRun] at h
  rcases hc : auth_chalresp_client key nonce env with _ | ⟨t0, r0⟩
  · rw [hc] at h; exact absurd h (by simp)
  · rw [hc] at h
    obtain ⟨h1, h2⟩ : t = Ev.setStatus AuthStatus.started :: t0 ∧ r = r0 := by
      simpa using h.symm
    subst h1; subst h2
    obtain ⟨c1, c2, c3⟩ := auth_chalresp_client_spec hc
    refine ⟨by simp [c1, evRecvOk], ?_, ?_⟩
    · intro post hpost
      rw [show afterObs (Ev.setStatus AuthStatus.started :: t0) = afterObs t0 from by
        simp [afterObs]] at hpost
      exact c2 post hpost
    · intro hnc
      have hc3 := c3 hnc
      simp [terminalEmitCount, List.countP_cons, evIsTerminalStatus, isTerminal] at hc3 ⊢
      exact hc3

lemma asrc_spec {co1 : CryptoOutcome} {key snonce junk : Bytes} {recvs : List OStep}
    {sends : List Int} {evs : List Ev} {ok : Bool} {recvs2 : List OStep}
    {sends2 : List Int}
    (h : auth_server_recv_challenge co1 key snonce junk recvs sends =
      some (evs, ok, recvs2, sends2)) :
    terminalEmitCount evs = 0 ∧ evs.all evRecvOk = true ∧
    (afterObs evs = none ∨ (afterObs evs = some [] ∧ ok = false)) ∧
    ((∀ o ∈ recvs, o.cancelAfter = false) → ok = true →
      ∀ o ∈ recvs2, o.cancelAfter = false) := by
  rw [auth_server_recv_challenge, auth_server_recv_msg] at h
  rcases hre : recvLoop 35 [] recvs with ⟨evsl, res⟩
  rw [hre] at h
  have hcount : terminalEmitCount evsl = 0 := by
    have := terminalEmitCount_recvLoop 35 [] recvs
    rw [hre] at this; exact this
  have hall : evsl.all evRecvOk = true := by
    have := all_evRecvOk_recvLoop 35 [] recvs
    rw [hre] at this; exact this
  have hobs := recvLoop_obs recvs 35 []
  rw [hre] at hobs
  have hclr := recvLoop_clear recvs 35 []
  rw [hre] at hclr
  cases res with
  | noFuel => exact absurd h (by simp)
  | bad => exact absurd h (by simp)
  | canceled rest =>
    have hao : afterObs evsl = some [] := by
      rcases hobs with ⟨r', _, ha⟩ | ⟨hr, _⟩
      · exact ha
      · exact absurd rfl (hr rest)
    obtain ⟨h1, h2, h3, h4⟩ : evs = evsl ∧ ok = false ∧ recvs2 = rest ∧
        sends2 = sends := by simpa using h.symm
    subst h1; subst h2; subst h3; subst h4
    exact ⟨hcount, hall, Or.inr ⟨hao, rfl⟩, fun _ hok => absurd hok (by simp)⟩
  | recvErr rest =>
    have hao : afterObs evsl = none := by
      rcases hobs with ⟨r', hr, _⟩ | ⟨_, ha⟩
      · exact absurd hr (by simp)
      · exact ha
    obtain ⟨h1, h2, h3, h4⟩ : evs = evsl ∧ ok = false ∧ recvs2 = rest ∧
        sends2 = sends := by simpa using h.symm
    subst h1; subst h2; subst h3; subst h4
    exact ⟨hcount, hall, Or.inl hao, fun _ hok => absurd hok (by simp)⟩
  | done m1 rest =>
    dsimp only at h
    have hao : afterObs evsl = none := by
      rcases hobs with ⟨r', hr, _⟩ | ⟨_, ha⟩
      · exact absurd hr (by simp)
      · exact ha
    have hrest : (∀ o ∈ recvs, o.cancelAfter = false) →
        ∀ o ∈ rest, o.cancelAfter = false := by
      intro hc
      exact (hclr hc).2 m1 rest rfl
    by_cases hchk : auth_check_msg m1 AUTH_CLIENT_CHAL_MSG_ID = true
    · rw [if_pos hchk] at h
      cases sends with
      | nil => exact absurd h (by simp [sendOne])
      | cons s1 srest =>
        rw [show sendOne (s1 :: srest) = some (s1, srest) from rfl] at h
        dsimp only at h
        obtain ⟨h1, h2, h3, h4⟩ : evs = evsl ++
            [Ev.send (serverChalRespFrame
              (match auth_chalresp_hash co1 (clientChallengeOf m1) key with
               | HashRes.ok d => d
               | HashRes.errCrypto => (junk ++ List.replicate 32 0).take 32) snonce)] ∧
            ok = sendAccepted s1 67 ∧ recvs2 = rest ∧ sends2 = srest := by
          simpa using h.symm
        subst h1; subst h2; subst h3; subst h4
        refine ⟨?_, ?_, Or.inl ?_, fun hc _ => hrest hc⟩
        · rw [terminalEmitCount_append, hcount]
          simp [terminalEmitCount, List.countP_cons, evIsTerminalStatus]
        · rw [List.all_append, hall]
          simp [evRecvOk]
        · rw [afterObs_append_none _ _ hao]
          simp [afterObs]
    · rw [if_neg hchk] at h
      obtain ⟨h1, h2, h3, h4⟩ : evs = evsl ∧ ok = false ∧ recvs2 = rest ∧
          sends2 = sends := by simpa using h.symm
      subst h1; subst h2; subst h3; subst h4
      exact ⟨hcount, hall, Or.inl hao, fun _ hok => absurd hok (by simp)⟩

lemma asrcr_spec {co2 : CryptoOutcome} {key snonce : Bytes} {recvs : List OStep}
    {sends : List Int} {evs : List Ev} {st : AuthStatus} {recvs2 : List OStep}
    {sends2 : List Int}
    (h : auth_server_recv_chalresp co2 key snonce recvs sends =
      some (evs, st, recvs2, sends2)) :
    terminalEmitCount evs = 0 ∧ evs.all evRecvOk = true ∧ isTerminal st = true ∧
    (afterObs evs = none ∨ (afterObs evs = some [] ∧
      (st = AuthStatus.failed ∨ st = AuthStatus.authFailed))) := by
  rw [auth_server_recv_chalresp] at h
  simp only [auth_server_recv_msg] at h
  rcases hre : recvLoop 3 [] recvs with ⟨evsh, res⟩
  rw [hre] at h
  have hcount : terminalEmitCount evsh = 0 := by
    have := terminalEmitCount_recvLoop 3 [] recvs
    rw [hre] at this; exact this
  have hall : evsh.all evRecvOk = true := by
    have := all_evRecvOk_recvLoop 3 [] recvs
    rw [hre] at this; exact this
  have hobs := recvLoop_obs recvs 3 []
  rw [hre] at hobs
  cases res with
  | noFuel => exact absurd h (by simp)
  | bad => exact absurd h (by simp)
  | canceled rest =>
    have hao : afterObs evsh = some [] := by
      rcases hobs with ⟨r', _, ha⟩ | ⟨hr, _⟩
      · exact ha
      · exact absurd rfl (hr rest)
    obtain ⟨h1, h2, h3, h4⟩ : evs = evsh ∧ st = AuthStatus.failed ∧
        recvs2 = rest ∧ sends2 = sends := by simpa using h.symm
    subst h1; subst h2; subst h3; subst h4
    exact ⟨hcount, hall, rfl, Or.inr ⟨hao, Or.inl rfl⟩⟩
  | recvErr rest =>
    have hao : afterObs evsh = none := by
      rcases hobs with ⟨r', hr, _⟩ | ⟨_, ha⟩
      · exact absurd hr (by simp)
      · exact ha
    obtain ⟨h1, h2, h3, h4⟩ : evs = evsh ∧ st = AuthStatus.failed ∧
        recvs2 = rest ∧ sends2 = sends := by simpa using h.symm
    subst h1; subst h2; subst h3; subst h4
    exact ⟨hcount, hall, rfl, Or.inl hao⟩
  | done hdr rest =>
    dsimp only at h
    have hao : afterObs evsh = none := by
      rcases hobs with ⟨r', hr, _⟩ | ⟨_, ha⟩
      · exact absurd hr (by simp)
      · exact ha
    by_cases hid : parseMsgId hdr = AUTH_CHALRESP_RESULT_MSG_ID
    · rw [if_pos hid] at h
      rcases hre2 : recvLoop 1 [] rest with ⟨evsi, res2⟩
      rw [hre2] at h
      have hcount2 : terminalEmitCount evsi = 0 := by
        have := terminalEmitCount_recvLoop 1 [] rest
        rw [hre2] at this; exact this
      have hall2 : evsi.all evRecvOk = true := by
        have := all_evRecvOk_recvLoop 1 [] rest
        rw [hre2] at this; exact this
      have hobs2 := recvLoop_obs rest 1 []
      rw [hre2] at hobs2
      have hfin : ∀ (rest2 : List OStep),
          evs = evsh ++ evsi ∧ st = AuthStatus.authFailed ∧
            recvs2 = rest2 ∧ sends2 = sends →
          terminalEmitCount evs = 0 ∧ evs.all evRecvOk = true ∧
          isTerminal st = true ∧
          (afterObs evs = none ∨ (afterObs evs = some [] ∧
            (st = AuthStatus.failed ∨ st = AuthStatus.authFailed))) := by
        intro rest2 ⟨h1, h2, h3, h4⟩
        subst h1; subst h2; subst h3; subst h4
        refine ⟨?_, ?_, rfl, ?_⟩
        · rw [terminalEmitCount_append, hcount, hcount2]
        · rw [List.all_append, hall, hall2]; rfl
        · rw [afterObs_append_none _ _ hao]
          rcases hobs2 with ⟨r', _, ha⟩ | ⟨_, ha⟩
          · exact Or.inr ⟨ha, Or.inr rfl⟩
          · exact Or.inl ha
      cases res2 with
      | noFuel => exact absurd h (by simp)
      | bad => exact absurd h (by simp)
      | canceled rest2 => exact hfin rest2 (by simpa using h.symm)
      | recvErr rest2 => exact hfin rest2 (by simpa using h.symm)
      | done b rest2 => exact hfin rest2 (by simpa using h.symm)
    · rw [if_neg hid] at h
      rcases hre2 : recvLoop 32 [] rest with ⟨evsb, res2⟩
      rw [hre2] at h
      have hcount2 : terminalEmitCount evsb = 0 := by
        have := terminalEmitCount_recvLoop 32 [] rest
        rw [hre2] at this; exact this
      have hall2 : evsb.all evRecvOk = true := by
        have := all_evRecvOk_recvLoop 32 [] rest
        rw [hre2] at this; exact this
      have hobs2 := recvLoop_obs rest 32 []
      rw [hre2] at hobs2
      cases res2 with
      | noFuel => exact absurd h (by simp)
      | bad => exact absurd h (by simp)
      | canceled rest2 =>
        have hao2 : afterObs evsb = some [] := by
          rcases hobs2 with ⟨r', _, ha⟩ | ⟨hr, _⟩
          · exact ha
          · exact absurd rfl (hr rest2)
        obtain ⟨h1, h2, h3, h4⟩ : evs = evsh ++ evsb ∧ st = AuthStatus.failed ∧
            recvs2 = rest2 ∧ sends2 = sends := by simpa using h.symm
        subst h1; subst h2; subst h3; subst h4
        refine ⟨?_, ?_, rfl, ?_⟩
        · rw [terminalEmitCount_append, hcount, hcount2]
        · rw [List.all_append, hall, hall2]; rfl
        · rw [afterObs_append_none _ _ hao]
          exact Or.inr ⟨hao2, Or.inl rfl⟩
      | recvErr rest2 =>
        have hao2 : afterObs evsb = none := by
          rcases hobs2 with ⟨r', hr, _⟩ | ⟨_, ha⟩
          · exact absurd hr (by simp)
          · exact ha
        obtain ⟨h1, h2, h3, h4⟩ : evs = evsh ++ evsb ∧ st = AuthStatus.failed ∧
            recvs2 = rest2 ∧ sends2 = sends := by simpa using h.symm
        subst h1; subst h2; subst h3; subst h4
        refine ⟨?_, ?_, rfl, ?_⟩
        · rw [terminalEmitCount_append, hcount, hcount2]
        · rw [List.all_append, hall, hall2]; rfl
        · rw [afterObs_append_none _ _ hao]
          exact Or.inl hao2
      | done body rest2 =>
        dsimp only at h
        have hao2 : afterObs evsb = none := by
          rcases hobs2 with ⟨r', hr, _⟩ | ⟨_, ha⟩
          · exact absurd hr (by simp)
          · exact ha
        cases hh : auth_chalresp_hash co2 snonce key with
        | errCrypto =>
          rw [hh] at h
          obtain ⟨h1, h2, h3, h4⟩ : evs = evsh ++ evsb ∧ st = AuthStatus.failed ∧
              recvs2 = rest2 ∧ sends2 = sends := by simpa using h.symm
          subst h1; subst h2; subst h3; subst h4
          refine ⟨?_, ?_, rfl, ?_⟩
          · rw [terminalEmitCount_append, hcount, hcount2]
          · rw [List.all_append, hall, hall2]; rfl
          · rw [afterObs_append_none _ _ hao]
            exact Or.inl hao2
        | ok d =>
          rw [hh] at h
          dsimp only at h
          cases sends with
          | nil => exact absurd h (by simp [sendOne])
          | cons s1 srest =>
            rw [show sendOne (s1 :: srest) = some (s1, srest) from rfl] at h
            dsimp only at h
            have hfin2 : ∀ (b : Nat) (s : AuthStatus),
                isTerminal s = true →
                evs = evsh ++ (evsb ++ [Ev.send (chalrespResultFrame b)]) ∧
                  st = s ∧ recvs2 = rest2 ∧ sends2 = srest →
                terminalEmitCount evs = 0 ∧ evs.all evRecvOk = true ∧
                isTerminal st = true ∧
                (afterObs evs = none ∨ (afterObs evs = some [] ∧
                  (st = AuthStatus.failed ∨ st = AuthStatus.authFailed))) := by
              intro b s hterm ⟨h1, h2, h3, h4⟩
              subst h1; subst h2; subst h3; subst h4
              refine ⟨?_, ?_, hterm, Or.inl ?_⟩
              · rw [terminalEmitCount_append, terminalEmitCount_append, hcount, hcount2]
                simp [terminalEmitCount, List.countP_cons, evIsTerminalStatus]
              · rw [List.all_append, List.all_append, hall, hall2]
                simp [evRecvOk]
              · rw [afterObs_append_none _ _ hao, afterObs_append_none _ _ hao2]
                simp [afterObs]
            by_cases hmm : memcmpNz d body = true
            · by_cases hacc : sendAccepted s1 4 = true
              · exact hfin2 1 AuthStatus.authFailed rfl (by simpa [hmm, hacc] using h.symm)
              · exact hfin2 1 AuthStatus.failed rfl (by simpa [hmm, hacc] using h.symm)
            · have hmmf : memcmpNz d body = false := by simpa using hmm
              by_cases hacc : sendAccepted s1 4 = true
              · exact hfin2 0 AuthStatus.successful rfl (by simpa [hmmf, hacc] using h.symm)
              · exact hfin2 0 AuthStatus.failed rfl (by simpa [hmmf, hacc] using h.symm)

lemma auth_chalresp_server_spec {key snonce : Bytes} {env : Env} {t : List Ev}
    {r : AuthRet} (h : auth_chalresp_server key snonce env = some (t, r)) :
    t.all evRecvOk = true ∧
    (∀ post, afterObs t = some post →
      post = [] ∨ post = [Ev.setStatus AuthStatus.failed] ∨
      post = [Ev.setStatus AuthStatus.authFailed]) ∧
    (noCancelEnv env = true → terminalEmitCount t = 1) := by
  rw [auth_chalresp_server] at h
  rcases hc1 : auth_server_recv_challenge env.co1 key snonce env.junk env.recvs env.sends
    with _ | ⟨evs1, ok, recvs1, sends1⟩
  · rw [hc1] at h; exact absurd h (by simp)
  · rw [hc1] at h
    dsimp only at h
    obtain ⟨c1, c2, c3, _⟩ := asrc_spec hc1
    cases ok with
    | false =>
      rw [if_neg (by simp)] at h
      obtain ⟨h1, h2⟩ : t = evs1 ++ [Ev.setStatus AuthStatus.failed] ∧
          r = AuthRet.errFailed := by simpa using h.symm
      subst h1; subst h2
      refine ⟨?_, ?_, ?_⟩
      · rw [List.all_append, c2]; simp [evRecvOk]
      · intro post hpost
        rcases c3 with hnone | ⟨hsome, _⟩
        · rw [afterObs_append_none _ _ hnone] at hpost
          simp [afterObs] at hpost
        · rw [afterObs_append_some _ _ _ hsome] at hpost
          simp at hpost
          right; left; exact hpost.symm
      · intro _
        rw [terminalEmitCount_append, c1]
        simp [terminalEmitCount, List.countP_cons, evIsTerminalStatus, isTerminal]
    | true =>
      rw [if_pos rfl] at h
      have hao1 : afterObs evs1 = none := by
        rcases c3 with hnone | ⟨_, hfalse⟩
        · exact hnone
        · exact absurd hfalse (by simp)
      by_cases hcA : env.cancelA = true
      · rw [if_pos hcA] at h
        obtain ⟨h1, h2⟩ : t = evs1 ++ [Ev.cancelObs] ∧ r = AuthRet.errCanceled := by
          simpa using h.symm
        subst h1; subst h2
        refine ⟨?_, ?_, ?_⟩
        · rw [List.all_append, c2]; simp [evRecvOk]
        · intro post hpost
          rw [afterObs_append_none _ _ hao1] at hpost
          simp [afterObs] at hpost
          left; exact hpost
        · intro hnc
          rw [noCancelEnv_cancelA hnc] at hcA
          exact absurd hcA (by simp)
      · rw [if_neg hcA] at h
        rcases hc2 : auth_server_recv_chalresp env.co2 key snonce recvs1 sends1
          with _ | ⟨evs2, st, r2, s2⟩
        · rw [hc2] at h; exact absurd h (by simp)
        · rw [hc2] at h
          dsimp only at h
          obtain ⟨d1, d2, d3, d4⟩ := asrcr_spec hc2
          obtain ⟨h1, h2⟩ : t = evs1 ++ evs2 ++ [Ev.setStatus st] ∧
              r = (if st = AuthStatus.successful then AuthRet.success
                   else AuthRet.errFailed) := by simpa using h.symm
          subst h1; subst h2
          refine ⟨?_, ?_, ?_⟩
          · rw [List.all_append, List.all_append, c2, d2]; simp [evRecvOk]
          · intro post hpost
            rw [List.append_assoc, afterObs_append_none _ _ hao1] at hpost
            rcases d4 with hnone | ⟨hsome, hst⟩
            · rw [afterObs_append_none _ _ hnone] at hpost
              simp [afterObs] at hpost
            · rw [afterObs_append_some _ _ _ hsome] at hpost
              simp at hpost
              rcases hst with hst | hst
              · right; left; rw [← hpost, hst]
              · right; right; rw [← hpost, hst]
          · intro _
            rw [terminalEmitCount_append, terminalEmitCount_append, c1, d1]
            simp [terminalEmitCount, List.countP_cons, evIsTerminalStatus, d3]

lemma serverRun_spec {key snonce : Bytes} {env : Env} {t : List Ev} {r : AuthRet}
    (h : serverRun key snonce env = some (t, r)) :
    t.all evRecvOk = true ∧
    (∀ post, afterObs t = some post →
      post = [] ∨ post = [Ev.setStatus AuthStatus.failed] ∨
      post = [Ev.setStatus AuthStatus.authFailed]) ∧
    (noCancelEnv env = true → terminalEmitCount t = 1) := by
  rw [serverRun] at h
  rcases hc : auth_chalresp_server key snonce env with _ | ⟨t0, r0⟩
  · rw [hc] at h; exact absurd h (by simp)
  · rw [hc] at h
    obtain ⟨h1, h2⟩ : t = Ev.setStatus AuthStatus.started :: t0 ∧ r = r0 := by
      simpa using h.symm
    subst h1; subst h2
    obtain ⟨c1, c2, c3⟩ := auth_chalresp_server_spec hc
    refine ⟨by simp [c1, evRecvOk], ?_, ?_⟩
    · intro post hpost
      rw [show afterObs (Ev.setStatus AuthStatus.started :: t0) = afterObs t0 from by
        simp [afterObs]] at hpost
      exact c2 post hpost
    · intro hnc
      have hc3 := c3 hnc
      simp [terminalEmitCount, List.countP_cons, evIsTerminalStatus, isTerminal] at hc3 ⊢
      exact hc3

set_option maxRecDepth 100000 in
/-- C5 counterexample: the server processes a message 3 whose SOH is `0x0000`
(header bytes `[0, 0, 3]`) as a perfectly valid response — decoding succeeds,
the hash is compared, and the session terminates `successful`, because
`auth_server_recv_chalresp` never checks the SOH of the received header. -/
theorem c5_soh_cex :
    parseSoh [0, 0, 3] ≠ CHALLENGE_RESP_SOH ∧
    serverRun (List.replicate 32 0) (List.replicate 32 1)
      { recvs := [⟨RecvStep.data ([0xA2, 0x65, 1] ++ List.replicate 32 2), false⟩,
                  ⟨RecvStep.data [0, 0, 3], false⟩,
                  ⟨RecvStep.data (sha256 (List.replicate 32 1 ++ List.replicate 32 0)),
                   false⟩],
        sends := [67, 4], cancelA := false, co1 := cryptoOk, co2 := cryptoOk,
        junk := [] } =
      some ([Ev.setStatus AuthStatus.started, Ev.recv AUTH_RX_TIMEOUT_MSEC,
             Ev.send (serverChalRespFrame
               (sha256 (List.replicate 32 2 ++ List.replicate 32 0))
               (List.replicate 32 1)),
             Ev.recv AUTH_RX_TIMEOUT_MSEC, Ev.recv AUTH_RX_TIMEOUT_MSEC,
             Ev.send (chalrespResultFrame 0), Ev.setStatus AuthStatus.successful],
            AuthRet.success) := by
  exact ⟨by decide, by decide⟩

/-- C5 amended: the SOH check applies only where `auth_check_msg` is called.
A message 1 or message 2 with wrong SOH makes the session terminate `failed`;
a result message (message 4) with wrong SOH makes the client terminate
`authentication-failed` (not `failed`); and the server's message-3 header is
never SOH-checked at all (see the counterexample). -/
theorem c5_soh_checks :
    (∀ (key nonce m2 junk : Bytes) (co1 co2 : CryptoOutcome) (rtail : List OStep)
       (stail : List Int),
      m2.length = 67 → parseSoh m2 ≠ CHALLENGE_RESP_SOH →
      clientRun key nonce
        { recvs := ⟨RecvStep.data m2, false⟩ :: rtail, sends := 35 :: stail,
          cancelA := false, co1 := co1, co2 := co2, junk := junk } =
        some ([Ev.setStatus AuthStatus.started, Ev.send (clientChalFrame nonce),
               Ev.recv AUTH_RX_TIMEOUT_MSEC, Ev.setStatus AuthStatus.failed],
              AuthRet.errFailed)) ∧
    (∀ (key snonce m1 junk : Bytes) (co1 co2 : CryptoOutcome) (rtail : List OStep)
       (stail : List Int),
      m1.length = 35 → parseSoh m1 ≠ CHALLENGE_RESP_SOH →
      serverRun key snonce
        { recvs := ⟨RecvStep.data m1, false⟩ :: rtail, sends := stail,
          cancelA := false, co1 := co1, co2 := co2, junk := junk } =
        some ([Ev.setStatus AuthStatus.started, Ev.recv AUTH_RX_TIMEOUT_MSEC,
               Ev.setStatus AuthStatus.failed], AuthRet.errFailed)) ∧
    (∀ (key nonce m2 b4 junk : Bytes) (stail : List Int),
      key.length = 32 → nonce.length = 32 → m2.length = 67 →
      parseSoh m2 = CHALLENGE_RESP_SOH →
      parseMsgId m2 = AUTH_SERVER_CHALRESP_MSG_ID →
      memcmpNz (sha256 (nonce ++ key)) (serverResponseOf m2) = false →
      b4.length = 4 → parseSoh b4 ≠ CHALLENGE_RESP_SOH →
      clientRun key nonce
        { recvs := [⟨RecvStep.data m2, false⟩, ⟨RecvStep.data b4, false⟩],
          sends := 35 :: 35 :: stail, cancelA := false, co1 := cryptoOk,
          co2 := cryptoOk, junk := junk } =
        some ([Ev.setStatus AuthStatus.started, Ev.send (clientChalFrame nonce),
               Ev.recv AUTH_RX_TIMEOUT_MSEC,
               Ev.send (clientChalRespFrame (sha256 (serverChallengeOf m2 ++ key))),
               Ev.recv AUTH_RX_TIMEOUT_MSEC, Ev.setStatus AuthStatus.authFailed],
              AuthRet.errFailed)) := by
  refine ⟨?_, ?_, ?_⟩
  · intro key nonce m2 junk co1 co2 rtail stail hm2 hsoh
    have hb : (parseSoh m2 == CHALLENGE_RESP_SOH) = false := by
      simp [hsoh]
    simp [clientRun, auth_chalresp_client, auth_client_send_challenge, sendOne,
          show sendAccepted 35 35 = true from by decide,
          recvLoop_single_data 67 m2 rtail hm2 (by omega),
          auth_client_recv_chal_resp, auth_check_msg, hb]
  · intro key snonce m1 junk co1 co2 rtail stail hm1 hsoh
    have hb : (parseSoh m1 == CHALLENGE_RESP_SOH) = false := by
      simp [hsoh]
    simp [serverRun, auth_chalresp_server, auth_server_recv_challenge,
          auth_server_recv_msg,
          recvLoop_single_data 35 m1 rtail hm1 (by omega),
          auth_check_msg, hb]
  · intro key nonce m2 b4 junk stail hk hn hm2 hsoh hid hmm hb4 hsoh4
    have hsc : (serverChallengeOf m2).length = 32 := by
      simp [serverChallengeOf, hm2]
    have hb : (parseSoh b4 == CHALLENGE_RESP_SOH) = false := by
      simp [hsoh4]
    simp [clientRun, auth_chalresp_client, auth_client_send_challenge, sendOne,
          show sendAccepted 35 35 = true from by decide,
          recvLoop_single_data 67 m2 _ hm2 (by omega),
          auth_client_recv_chal_resp, auth_check_msg, hsoh, hid, hb,
          auth_chalresp_hash_ok nonce key hn hk,
          auth_chalresp_hash_ok (serverChallengeOf m2) key hsc hk, hmm, hb4]

/-- C5 witness: a concrete message 1 with SOH `0x0000` makes the server
terminate `failed`. -/
theorem c5_witness :
    serverRun (List.replicate 32 0) (List.replicate 32 1)
      { recvs := [⟨RecvStep.data (0 :: 0 :: 1 :: List.replicate 32 2), false⟩],
        sends := [67], cancelA := false, co1 := cryptoOk, co2 := cryptoOk,
        junk := [] } =
      some ([Ev.setStatus AuthStatus.started, Ev.recv AUTH_RX_TIMEOUT_MSEC,
             Ev.setStatus AuthStatus.failed], AuthRet.errFailed) :=
  c5_soh_checks.2.1 (List.replicate 32 0) (List.replicate 32 1)
    (0 :: 0 :: 1 :: List.replicate 32 2) [] cryptoOk cryptoOk [] [67]
    (by decide) (by decide)

set_option maxRecDepth 100000 in
/-- C6 counterexample: the client's receive of the final result message
(message 4) is a single `auth_xport_recv` call, not a retry loop: when it
returns `-EAGAIN` (timeout) with the cancellation flag clear, the session
terminates `authentication-failed` instead of looping back into another
receive, contradicting the claim that every blocking receive retries on
timeout until the frame is accumulated. -/
theorem c6_final_recv_timeout_cex :
    clientRun (List.replicate 32 0) (List.replicate 32 3)
      { recvs := [⟨RecvStep.data ([0xA2, 0x65, 2] ++
                    sha256 (List.replicate 32 3 ++ List.replicate 32 0) ++
                    List.replicate 32 4), false⟩,
                  ⟨RecvStep.again, false⟩],
        sends := [35, 35], cancelA := false, co1 := cryptoOk, co2 := cryptoOk,
        junk := [] } =
      some ([Ev.setStatus AuthStatus.started,
             Ev.send (clientChalFrame (List.replicate 32 3)),
             Ev.recv AUTH_RX_TIMEOUT_MSEC,
             Ev.send (clientChalRespFrame
               (sha256 (List.replicate 32 4 ++ List.replicate 32 0))),
             Ev.recv AUTH_RX_TIMEOUT_MSEC, Ev.setStatus AuthStatus.authFailed],
            AuthRet.errFailed) := by
  decide

/-- C6 amended: every receive uses the 3000 ms window
(`AUTH_RX_TIMEOUT_MSEC`); inside the receive loops a timeout (`-EAGAIN`) with
the cancellation flag clear loops back into another receive, a short read is
retried with the remaining byte count, and any other non-positive return is
fatal — but the client's final receive of the 4-byte result message is a
single call: a timeout or short read there terminates the session
`authentication-failed` instead of retrying. -/
theorem c6_recv_behavior :
    (∀ (n : Nat) (acc : Bytes) (rest : List OStep), n ≠ 0 →
      recvLoop n acc (⟨RecvStep.again, false⟩ :: rest) =
        (Ev.recv AUTH_RX_TIMEOUT_MSEC :: (recvLoop n acc rest).1,
         (recvLoop n acc rest).2)) ∧
    (∀ (n : Nat) (acc bs : Bytes) (rest : List OStep), n ≠ 0 →
      ¬(bs.length = 0 ∨ n < bs.length) →
      recvLoop n acc (⟨RecvStep.data bs, false⟩ :: rest) =
        (Ev.recv AUTH_RX_TIMEOUT_MSEC ::
          (recvLoop (n - bs.length) (acc ++ bs) rest).1,
         (recvLoop (n - bs.length) (acc ++ bs) rest).2)) ∧
    (∀ (n : Nat) (acc : Bytes) (e : Int) (rest : List OStep), n ≠ 0 →
      recvLoop n acc (⟨RecvStep.fail e, false⟩ :: rest) =
        ([Ev.recv AUTH_RX_TIMEOUT_MSEC], LoopRes.recvErr rest)) ∧
    (∀ (key nonce : Bytes) (env : Env) (t : List Ev) (r : AuthRet),
      clientRun key nonce env = some (t, r) → t.all evRecvOk = true) ∧
    (∀ (key snonce : Bytes) (env : Env) (t : List Ev) (r : AuthRet),
      serverRun key snonce env = some (t, r) → t.all evRecvOk = true) ∧
    (∀ (key nonce m2 junk : Bytes) (stail : List Int),
      key.length = 32 → nonce.length = 32 → m2.length = 67 →
      parseSoh m2 = CHALLENGE_RESP_SOH →
      parseMsgId m2 = AUTH_SERVER_CHALRESP_MSG_ID →
      memcmpNz (sha256 (nonce ++ key)) (serverResponseOf m2) = false →
      clientRun key nonce
        { recvs := [⟨RecvStep.data m2, false⟩, ⟨RecvStep.again, false⟩],
          sends := 35 :: 35 :: stail, cancelA := false, co1 := cryptoOk,
          co2 := cryptoOk, junk := junk } =
        some ([Ev.setStatus AuthStatus.started, Ev.send (clientChalFrame nonce),
               Ev.recv AUTH_RX_TIMEOUT_MSEC,
               Ev.send (clientChalRespFrame (sha256 (serverChallengeOf m2 ++ key))),
               Ev.recv AUTH_RX_TIMEOUT_MSEC, Ev.setStatus AuthStatus.authFailed],
              AuthRet.errFailed)) := by
  refine ⟨fun n acc rest h0 => recvLoop_again n acc rest h0,
          fun n acc bs rest h0 hb => recvLoop_data_ok n acc bs rest h0 hb,
          fun n acc e rest h0 => recvLoop_fail n acc e rest h0,
          fun _ _ _ _ _ h => (clientRun_spec h).1,
          fun _ _ _ _ _ h => (serverRun_spec h).1, ?_⟩
  intro key nonce m2 junk stail hk hn hm2 hsoh hid hmm
  have hsc : (serverChallengeOf m2).length = 32 := by
    simp [serverChallengeOf, hm2]
  simp [clientRun, auth_chalresp_client, auth_client_send_challenge, sendOne,
        show sendAccepted 35 35 = true from by decide,
        recvLoop_single_data 67 m2 _ hm2 (by omega),
        auth_client_recv_chal_resp, auth_check_msg, hsoh, hid,
        auth_chalresp_hash_ok nonce key hn hk,
        auth_chalresp_hash_ok (serverChallengeOf m2) key hsc hk, hmm]

/-- C6 witness: a non-timeout error return is fatal for the receive loop. -/
theorem c6_witness :
    recvLoop 4 [] [⟨RecvStep.fail (-5), false⟩] =
      ([Ev.recv AUTH_RX_TIMEOUT_MSEC], LoopRes.recvErr []) :=
  c6_recv_behavior.2.2.1 4 [] (-5) [] (by decide)

/-- C7 counterexample: a server session whose worker observes the
cancellation flag right after a receive completes terminates with status
`failed`, not `canceled`: `auth_server_recv_msg` returns false on observed
cancellation, which `auth_server_recv_challenge`'s caller maps to
`AUTH_STATUS_FAILED`. -/
theorem c7_server_cancel_cex :
    serverRun (List.replicate 32 0) (List.replicate 32 0)
      { recvs := [⟨RecvStep.again, true⟩], sends := [], cancelA := false,
        co1 := cryptoOk, co2 := cryptoOk, junk := [] } =
      some ([Ev.setStatus AuthStatus.started, Ev.recv AUTH_RX_TIMEOUT_MSEC,
             Ev.cancelObs, Ev.setStatus AuthStatus.failed], AuthRet.errFailed) ∧
    AuthStatus.failed ≠ AuthStatus.canceled := by
  exact ⟨by decide, by decide⟩

/-- C7 amended: after the worker observes the cancellation flag it transmits
no further frames, and the only status it may still emit is `canceled` on the
client but `failed` or `authentication-failed` on the server (the `canceled`
status of such a session is emitted by `auth_lib_cancel` itself, not by the
server worker). -/
theorem c7_cancel_observation :
    (∀ (key nonce : Bytes) (env : Env) (t : List Ev) (r : AuthRet),
      clientRun key nonce env = some (t, r) →
      ∀ post, afterObs t = some post →
        post = [] ∨ post = [Ev.setStatus AuthStatus.canceled]) ∧
    (∀ (key snonce : Bytes) (env : Env) (t : List Ev) (r : AuthRet),
      serverRun key snonce env = some (t, r) →
      ∀ post, afterObs t = some post →
        post = [] ∨ post = [Ev.setStatus AuthStatus.failed] ∨
        post = [Ev.setStatus AuthStatus.authFailed]) :=
  ⟨fun _ _ _ _ _ h => (clientRun_spec h).2.1,
   fun _ _ _ _ _ h => (serverRun_spec h).2.1⟩

/-- C7 witness: a concrete client run with an observed cancellation; the
suffix after the observation is exactly the worker's `canceled` emission. -/
theorem c7_witness :
    [Ev.setStatus AuthStatus.canceled] = [] ∨
    [Ev.setStatus AuthStatus.canceled] = [Ev.setStatus AuthStatus.canceled] :=
  c7_cancel_observation.1 (List.replicate 32 0) (List.replicate 32 0)
    { recvs := [⟨RecvStep.again, true⟩], sends := [35], cancelA := false,
      co1 := cryptoOk, co2 := cryptoOk, junk := [] }
    [Ev.setStatus AuthStatus.started,
     Ev.send (clientChalFrame (List.replicate 32 0)),
     Ev.recv AUTH_RX_TIMEOUT_MSEC, Ev.cancelObs,
     Ev.setStatus AuthStatus.canceled]
    AuthRet.errFailed (by decide) [Ev.setStatus AuthStatus.canceled] (by decide)

/-- C8 counterexample: when `auth_lib_cancel` runs (emitting `canceled` once)
and the client worker then observes the flag, the worker emits `canceled`
again — the session sets a terminal status twice, not exactly once. -/
theorem c8_double_terminal_cex :
    clientRun (List.replicate 32 0) (List.replicate 32 0)
      { recvs := [⟨RecvStep.again, true⟩], sends := [35], cancelA := false,
        co1 := cryptoOk, co2 := cryptoOk, junk := [] } =
      some ([Ev.setStatus AuthStatus.started,
             Ev.send (clientChalFrame (List.replicate 32 0)),
             Ev.recv AUTH_RX_TIMEOUT_MSEC, Ev.cancelObs,
             Ev.setStatus AuthStatus.canceled], AuthRet.errFailed) ∧
    sessionTerminalCount true
      [Ev.setStatus AuthStatus.started,
       Ev.send (clientChalFrame (List.replicate 32 0)),
       Ev.recv AUTH_RX_TIMEOUT_MSEC, Ev.cancelObs,
       Ev.setStatus AuthStatus.canceled] = 2 := by
  exact ⟨by decide, by decide⟩

/-- C8 amended: in every completed run without concurrent cancellation the
worker sets a terminal status exactly once (the status callback fires on each
`auth_lib_set_status`, so it fires exactly once with a terminal value); when
`session_cancel` runs it emits `canceled` itself, so the session still gets
at least one terminal emission, but possibly more than one. -/
theorem c8_terminal_emission :
    (∀ (key nonce : Bytes) (env : Env) (t : List Ev) (r : AuthRet),
      noCancelEnv env = true → clientRun key nonce env = some (t, r) →
      terminalEmitCount t = 1) ∧
    (∀ (key snonce : Bytes) (env : Env) (t : List Ev) (r : AuthRet),
      noCancelEnv env = true → serverRun key snonce env = some (t, r) →
      terminalEmitCount t = 1) ∧
    (∀ t : List Ev, 1 ≤ sessionTerminalCount true t) :=
  ⟨fun _ _ _ _ _ hnc h => (clientRun_spec h).2.2 hnc,
   fun _ _ _ _ _ hnc h => (serverRun_spec h).2.2 hnc,
   fun t => Nat.le_add_right 1 (terminalEmitCount t)⟩

/-- C8 witness: a concrete cancel-free client run whose trace has exactly one
terminal status emission. -/
theorem c8_witness :
    terminalEmitCount
      [Ev.setStatus AuthStatus.started,
       Ev.send (clientChalFrame (List.replicate 32 0)),
       Ev.recv AUTH_RX_TIMEOUT_MSEC, Ev.setStatus AuthStatus.failed] = 1 :=
  c8_terminal_emission.1 (List.replicate 32 0) (List.replicate 32 0)
    { recvs := [⟨RecvStep.fail (-5), false⟩], sends := [35], cancelA := false,
      co1 := cryptoOk, co2 := cryptoOk, junk := [] }
    [Ev.setStatus AuthStatus.started,
     Ev.send (clientChalFrame (List.replicate 32 0)),
     Ev.recv AUTH_RX_TIMEOUT_MSEC, Ev.setStatus AuthStatus.failed]
    AuthRet.errFailed (by decide) (by decide)
